import Mathlib

/-!
Shallow embedding of the circuit parser, data model and detector/observable
resolver of the Stim repository (file `circuit.cc`), together with theorems
checking the specification's claims against it.

Machine integers (the 32-bit target words, `size_t` counters) are modelled as
`Nat`; the bit fields of a target word are accessed with the same mask/shift
arithmetic as the source.  The `double` scalar argument of an operation is
modelled as `ℚ`: every argument the parser can produce is a decimal literal,
exact in `ℚ`, and every comparison the source performs on arguments is an
exact equality.
-/

/-! ## Target word layout

The repository's `circuit.h` (which defines these constants) is not part of
the four source files; the layout is modelled from the spec, §3:
bits 0–23 qubit index, bit 24 Pauli X, bit 25 Pauli Z, a record lookback field
at bit 28, bit 31 result inversion.  The spec describes the lookback field as
bits 28–30 but simultaneously requires `dt ∈ 1..15` (and the parser in
`circuit.cc` enforces `dt < 16`), which needs four bits; we therefore take the
four-bit field 28–31 implied by the parser.  The overlap of bit 31 with the
inversion mask is harmless: the two fields are used by disjoint gate kinds. -/

def TARGET_QUBIT_MASK : Nat := 2 ^ 24 - 1

def TARGET_PAULI_X_MASK : Nat := 2 ^ 24

def TARGET_PAULI_Z_MASK : Nat := 2 ^ 25

def TARGET_RECORD_SHIFT : Nat := 28

def TARGET_RECORD_MASK : Nat := 15 <<< TARGET_RECORD_SHIFT

def TARGET_INVERTED_MASK : Nat := 2 ^ 31

/-! ## Gate catalog

`gate_data.h` / `gate_data.cc` are likewise not among the source files; the
spec (§2, §6) treats the catalog as an external read-only table of descriptors
`(id, canonical name, flags)` with case-insensitive lookup by name.  The
catalog below is modelled from the spec: it carries the distinguished gates
the core refers to by name (`REPEAT`, `DETECTOR`, `OBSERVABLE_INCLUDE`), the
gates used in the spec's scenarios (`H`, `X`, `Y`, `Z`, `CNOT`, `M`, `R`),
and the flags §6 and §8 assign to them (`CNOT` targets pairs; `M` produces
results; `DETECTOR`/`OBSERVABLE_INCLUDE` only target the measurement record
and are not fusable; `OBSERVABLE_INCLUDE` takes a parens argument; `REPEAT`
is a block). -/

structure GateFlags where
  takes_parens_argument : Bool
  produces_results : Bool
  targets_pauli_string : Bool
  only_targets_measurement_record : Bool
  can_target_measurement_record : Bool
  targets_pairs : Bool
  is_block : Bool
  is_not_fusable : Bool
deriving DecidableEq, Repr

/-- A gate descriptor with no flags set. -/
def noFlags : GateFlags := ⟨false, false, false, false, false, false, false, false⟩

structure Gate where
  id : Nat
  name : String
  flags : GateFlags
deriving DecidableEq, Repr

/-- Modelled from the spec: the external gate catalog (§2 item 1, §6). -/
def GATE_DATA : List Gate :=
  [ ⟨0, "H", noFlags⟩,
    ⟨1, "X", noFlags⟩,
    ⟨2, "Y", noFlags⟩,
    ⟨3, "Z", noFlags⟩,
    ⟨4, "CNOT", { noFlags with targets_pairs := true }⟩,
    ⟨5, "M", { noFlags with produces_results := true }⟩,
    ⟨6, "R", noFlags⟩,
    ⟨7, "DETECTOR",
      { noFlags with only_targets_measurement_record := true, is_not_fusable := true }⟩,
    ⟨8, "OBSERVABLE_INCLUDE",
      { noFlags with only_targets_measurement_record := true, is_not_fusable := true,
                     takes_parens_argument := true }⟩,
    ⟨9, "REPEAT", { noFlags with is_block := true, is_not_fusable := true }⟩ ]

/-- ASCII uppercasing of one character, for the catalog's case-insensitive
lookup. -/
def ascii_upper (c : Char) : Char :=
  if 'a' ≤ c ∧ c ≤ 'z' then Char.ofNat (c.toNat - 32) else c

/-- Modelled from the spec: `GATE_DATA.at(name)` — case-insensitive lookup of a
gate descriptor by name; unknown names fail. -/
def gateDataAt (name : String) : Except String Gate :=
  match GATE_DATA.find? (fun g => g.name.data = name.data.map ascii_upper) with
  | some g => Except.ok g
  | none => Except.error ("Unrecognized gate name: " ++ name)

/-- Modelled from the spec: `gate_name_to_id` — the stable integer id of a
distinguished gate the core refers to by name. -/
def gate_name_to_id (name : String) : Nat :=
  match GATE_DATA.find? (fun g => g.name == name) with
  | some g => g.id
  | none => 1000000

/-! ## Circuit data model (`circuit.h` / `circuit.cc`)

An `Operation` holds a gate descriptor, the scalar argument, and an
arena-relative slice `(offset, length)` into the owning circuit's
`jagged_data`, exactly as the source's `{gate, {arg, {&jagged_data, offset,
num_targets}}}`. -/

structure Operation where
  gate : Gate
  arg : ℚ
  offset : Nat
  length : Nat
deriving DecidableEq, Repr

structure Circuit where
  jagged_data : List Nat
  operations : List Operation
  num_qubits : Nat
  num_measurements : Nat
deriving DecidableEq, Repr

/-- `Circuit()` — the default-constructed empty circuit. -/
def Circuit.empty : Circuit := ⟨[], [], 0, 0⟩

/-- The target words of an operation, read out of the owning arena
(`op.target_data.targets` dereferenced). -/
def Circuit.opTargets (c : Circuit) (op : Operation) : List Nat :=
  (c.jagged_data.drop op.offset).take op.length

/-- `Operation::can_fuse`: same gate id, equal arg, and the gate (of the
receiver) lacks `GATE_IS_NOT_FUSABLE`. -/
def Operation.can_fuse (a b : Operation) : Bool :=
  a.gate.id == b.gate.id && a.arg == b.arg && !a.gate.flags.is_not_fusable

/-- `Circuit::operator==`: equal `num_qubits`, `num_measurements`, and the
operation sequences equal element-wise, where two operations are equal iff
their gate ids match and their target data (arg and target word sequence)
matches bit-for-bit (`Operation::operator==` / `OperationData::operator==`). -/
def circuitEq (a b : Circuit) : Bool :=
  a.num_qubits == b.num_qubits && a.num_measurements == b.num_measurements &&
  a.operations.length == b.operations.length &&
  (List.zip a.operations b.operations).all fun pq =>
    pq.1.gate.id == pq.2.gate.id && pq.1.arg == pq.2.arg &&
    a.opTargets pq.1 == b.opTargets pq.2

/-! ## Detector and observable resolver (`Circuit::list_detectors_and_observables`) -/

/-- Truncating conversion of the scalar argument to `size_t`
(`(size_t)p.target_data.arg`); modelled for the non-negative range the
resolver accepts (a negative argument fails its integrality check). -/
def ratTruncToNat (a : ℚ) : Nat := a.floor.toNat

/-- The `resolve` lambda of `list_detectors_and_observables`: map each record
target to the `dt`-th most recent measurement index of its qubit. -/
def ldoResolve (qmi : Nat → List Nat) : List Nat → Except String (List Nat)
  | [] => Except.ok []
  | qb :: rest =>
    let q := qb &&& TARGET_QUBIT_MASK
    let dt := (qb &&& TARGET_RECORD_MASK) >>> TARGET_RECORD_SHIFT
    if dt = 0 then
      Except.error "Record lookback can't be 0 (unspecified)."
    else
      let v := qmi q
      if dt > v.length then
        Except.error "Referred to a measurement result before the beginning of time."
      else
        match ldoResolve qmi rest with
        | Except.error e => Except.error e
        | Except.ok tail => Except.ok (v.getD (v.length - dt) 0 :: tail)

/-- The measurement-recording inner loop: for each target of a
result-producing operation, append the next global measurement index `m` to
that target's qubit list. -/
def ldoRecord (qmi : Nat → List Nat) (m : Nat) : List Nat → (Nat → List Nat) × Nat
  | [] => (qmi, m)
  | t :: rest =>
    let q := t &&& TARGET_QUBIT_MASK
    ldoRecord (fun q' => if q' = q then qmi q' ++ [m] else qmi q') (m + 1) rest

/-- The main loop of `list_detectors_and_observables`, walking the operations
(with targets materialized from the arena) in program order. -/
def ldoLoop (qmi : Nat → List Nat) (m : Nat) (detectors : List (List Nat))
    (observables : List (List Nat)) :
    List (Gate × ℚ × List Nat) → Except String (List (List Nat) × List (List Nat))
  | [] => Except.ok (detectors, observables)
  | (g, a, ts) :: rest =>
    if g.flags.produces_results then
      let r := ldoRecord qmi m ts
      ldoLoop r.1 r.2 detectors observables rest
    else if g.id = gate_name_to_id "DETECTOR" then
      match ldoResolve qmi ts with
      | Except.error e => Except.error e
      | Except.ok res => ldoLoop qmi m (detectors ++ [res]) observables rest
    else if g.id = gate_name_to_id "OBSERVABLE_INCLUDE" then
      let obs := ratTruncToNat a
      if (obs : ℚ) ≠ a then
        Except.error "Observable index must be an integer."
      else
        match ldoResolve qmi ts with
        | Except.error e => Except.error e
        | Except.ok res =>
          -- while (observables.size() <= obs) observables.push_back(\x7b\x7d);
          let padded := observables ++ List.replicate (obs + 1 - observables.length) []
          ldoLoop qmi m detectors (padded.set obs (padded.getD obs [] ++ res)) rest
    else
      ldoLoop qmi m detectors observables rest

def Circuit.list_detectors_and_observables (c : Circuit) :
    Except String (List (List Nat) × List (List Nat)) :=
  ldoLoop (fun _ => []) 0 [] []
    (c.operations.map fun op => (op.gate, op.arg, c.opTargets op))

/-! ## Append API -/

/-- `_circuit_incremental_update_from_back`: account the just-appended last
operation into `num_measurements` and `num_qubits`. -/
def circuit_incremental_update_from_back (c : Circuit) : Circuit :=
  match c.operations.getLast? with
  | none => c  -- the source always calls this with a nonempty operation list
  | some op =>
    let vec := c.opTargets op
    let c1 :=
      if op.gate.flags.produces_results then
        { c with num_measurements := c.num_measurements + op.length }
      else c
    { c1 with
      num_qubits := vec.foldl (fun nq q => max nq ((q &&& TARGET_QUBIT_MASK) + 1)) c1.num_qubits }

/-- `Circuit::append_operation`: copy the operation's target words into the
local arena and push an operation viewing the fresh slice. -/
def Circuit.append_operation (c : Circuit) (gate : Gate) (arg : ℚ) (ts : List Nat) : Circuit :=
  let converted : Operation := ⟨gate, arg, c.jagged_data.length, ts.length⟩
  let c1 := { c with operations := c.operations ++ [converted],
                     jagged_data := c.jagged_data ++ ts }
  circuit_incremental_update_from_back c1

/-- `Circuit::append_circuit(circuit, repetitions)` for `&circuit != this`:
append the source's operations once via `append_operation`, then replicate the
single-repetition range `repetitions - 1` further times (operation structs
only — no arena growth, and no further measurement accounting). -/
def Circuit.append_circuit (c : Circuit) (other : Circuit) (repetitions : Nat) : Circuit :=
  if repetitions = 0 then c
  else
    let original_size := c.operations.length
    let c1 := other.operations.foldl
      (fun acc op => acc.append_operation op.gate op.arg (other.opTargets op)) c
    let single_rep_end := c1.operations.length
    let body := (c1.operations.drop original_size).take (single_rep_end - original_size)
    { c1 with operations := c1.operations ++ (List.replicate (repetitions - 1) body).flatten }

/-- `Circuit::append_circuit(circuit, repetitions)` for `&circuit == this`
(self-append): multiply `num_measurements` by `repetitions + 1` and insert
`repetitions` further copies of the original operation range. -/
def Circuit.append_circuit_self (c : Circuit) (repetitions : Nat) : Circuit :=
  if repetitions = 0 then c
  else
    { c with num_measurements := c.num_measurements * (repetitions + 1),
             operations := c.operations ++ (List.replicate repetitions c.operations).flatten }

/-- `Circuit::clear`. -/
def Circuit.clear (c : Circuit) : Circuit :=
  { c with num_qubits := 0, num_measurements := 0, jagged_data := [], operations := [] }

/-- `Circuit::operator*=`: zero repetitions clears, otherwise self-append
`repetitions - 1` further copies. -/
def Circuit.mulAssign (c : Circuit) (repetitions : Nat) : Circuit :=
  if repetitions = 0 then c.clear else c.append_circuit_self (repetitions - 1)

/-- `Circuit::operator+=`. -/
def Circuit.addAssign (c other : Circuit) : Circuit := c.append_circuit other 1

/-- The pair self-interaction scan shared by `Circuit::append_op` and
`circuit_read_single_operation`: walk the target list two at a time and fail
on the first pair whose two words are equal. -/
def pairs_self_check (gate_name : String) : List Nat → Option String
  | a :: b :: rest =>
    if a = b then
      some ("Interacting a target with itself " ++ toString (a &&& TARGET_QUBIT_MASK) ++
        " using gate " ++ gate_name ++ ".")
    else pairs_self_check gate_name rest
  | _ => none

/-- The valid-target-bit mask `Circuit::append_op` builds from the gate's
flags. -/
def valid_target_mask (gate : Gate) : Nat :=
  let m0 := TARGET_QUBIT_MASK
  let m1 := if gate.flags.produces_results then m0 ||| TARGET_INVERTED_MASK else m0
  let m2 := if gate.flags.targets_pauli_string then
    m1 ||| TARGET_PAULI_X_MASK ||| TARGET_PAULI_Z_MASK else m1
  if gate.flags.only_targets_measurement_record ∨ gate.flags.can_target_measurement_record then
    m2 ||| TARGET_RECORD_MASK
  else m2

/-- The target-range scan of `Circuit::append_op`: fail on the first target
word carrying a bit outside the gate's valid mask. -/
def first_invalid_target (mask : Nat) (gate_name : String) : List Nat → Option String
  | [] => none
  | q :: rest =>
    if q ≠ (q &&& mask) then
      some ("Target " ++ toString (q &&& TARGET_QUBIT_MASK) ++ " has invalid flags " ++
        toString (q &&& (2 ^ 32 - 1 - TARGET_QUBIT_MASK)) ++ " for gate " ++ gate_name ++ ".")
    else first_invalid_target mask gate_name rest

/-- The mutating tail of `Circuit::append_op`, reached after every validation
has passed: either extend the fusable last operation in place or push a fresh
operation, then run the incremental update. -/
def Circuit.append_op_mutate (c : Circuit) (gate : Gate) (vec : List Nat) (arg : ℚ)
    (allow_fusing : Bool) : Circuit :=
  let fuseOk : Bool := allow_fusing && !gate.flags.is_not_fusable &&
    (match c.operations.getLast? with
     | some b => b.gate.id == gate.id && b.arg == arg
     | none => false)
  if fuseOk then
    match c.operations.getLast? with
    | some b =>
      -- Don't double count measurements when doing incremental update.
      let c1 :=
        if gate.flags.produces_results then
          { c with num_measurements := c.num_measurements - b.length }
        else c
      -- Extend targets of last gate.
      let c2 := { c1 with
        jagged_data := c1.jagged_data ++ vec,
        operations := c1.operations.dropLast ++ [{ b with length := b.length + vec.length }] }
      circuit_incremental_update_from_back c2
    | none => c  -- unreachable: fuseOk forces a last operation
  else
    -- Add a fresh new operation with its own target data.
    let converted : Operation := ⟨gate, arg, c.jagged_data.length, vec.length⟩
    let c2 := { c with operations := c.operations ++ [converted],
                       jagged_data := c.jagged_data ++ vec }
    circuit_incremental_update_from_back c2

/-- `Circuit::append_op`.  All validation precedes any mutation in the source;
the error value carries the circuit state at the throw site, so that the
atomicity of a failing call is an inspectable fact. -/
def Circuit.append_op (c : Circuit) (gate_name : String) (vec : List Nat) (arg : ℚ)
    (allow_fusing : Bool) : Except (String × Circuit) Circuit :=
  match gateDataAt gate_name with
  | Except.error e => Except.error (e, c)
  | Except.ok gate =>
    if gate.flags.targets_pairs ∧ vec.length % 2 = 1 then
      Except.error
        ("Two qubit gate " ++ gate_name ++ " requires have an even number of targets.", c)
    else
      match (if gate.flags.targets_pairs then pairs_self_check gate_name vec else none) with
      | some e => Except.error (e, c)
      | none =>
        if arg ≠ 0 ∧ gate.flags.takes_parens_argument = false then
          Except.error ("Gate " ++ gate_name ++ " doesn't take a parens arg.", c)
        else
          match first_invalid_target (valid_target_mask gate) gate_name vec with
          | some e => Except.error (e, c)
          | none => Except.ok (c.append_op_mutate gate vec arg allow_fusing)

/-! ## Character-level parser (`circuit_read_operations` and helpers)

The C++ parser pulls one character at a time from a source callback and keeps
a single character of lookahead in `int c` (`EOF` at end of input).  A
`Cursor` models exactly that pair: the current lookahead character (`none` is
`EOF`) and the unread remainder.  `Cursor.advance` is `c = read_char()`.

The composite loops (one loop iteration per target or per operation) carry an
explicit recursion bound `fuel`; the entry points supply a bound larger than
any number of iterations a text of the given length can drive, so the bound is
never the reason a parse of a real text fails. -/

structure Cursor where
  cur : Option Char
  rest : List Char
deriving DecidableEq, Repr

def Cursor.advance : Cursor → Cursor
  | ⟨_, []⟩ => ⟨none, []⟩
  | ⟨_, x :: xs⟩ => ⟨some x, xs⟩

/-- The character standing for `'\x7b'` (opening brace). -/
def lbrace : Char := Char.ofNat 123

/-- The character standing for `'\x7d'` (closing brace). -/
def rbrace : Char := Char.ofNat 125

/-- The loop of `read_past_within_line_whitespace`, recursing on the unread
remainder. -/
def read_past_within_line_whitespace_from : Option Char → List Char → Cursor
  | some c, rest =>
    if c = ' ' ∨ c = '\t' then
      match rest with
      | [] => ⟨none, []⟩
      | x :: xs => read_past_within_line_whitespace_from (some x) xs
    else ⟨some c, rest⟩
  | none, rest => ⟨none, rest⟩

/-- `read_past_within_line_whitespace`: skip spaces and tabs. -/
def read_past_within_line_whitespace (s : Cursor) : Cursor :=
  read_past_within_line_whitespace_from s.cur s.rest

def is_name_char (c : Char) : Bool :=
  ('A' ≤ c ∧ c ≤ 'Z') ∨ ('a' ≤ c ∧ c ≤ 'z') ∨ ('0' ≤ c ∧ c ≤ '9') ∨ c = '_'

/-- The name-collecting loop of `read_gate_name`: read name characters while
the 32-byte buffer has room (an overlong name later fails the catalog
lookup). -/
def read_name_chars (room : Nat) (acc : List Char) (s : Cursor) : List Char × Cursor :=
  match room, s with
  | 0, _ => (acc, s)
  | _, ⟨none, _⟩ => (acc, s)
  | room + 1, ⟨some c, rest⟩ =>
    if is_name_char c then
      match rest with
      | [] => read_name_chars room (acc ++ [c]) ⟨none, []⟩
      | x :: xs => read_name_chars room (acc ++ [c]) ⟨some x, xs⟩
    else (acc, s)

/-- `read_gate_name`: collect up to 32 name characters and look the name up in
the gate catalog. -/
def read_gate_name (s : Cursor) : Except String (Gate × Cursor) :=
  let nc := read_name_chars 32 [] s
  match gateDataAt (String.mk nc.1) with
  | Except.error e => Except.error e
  | Except.ok g => Except.ok (g, nc.2)

def is_double_char (c : Char) : Bool :=
  ('0' ≤ c ∧ c ≤ '9') ∨ c = '.' ∨ c = 'e' ∨ c = 'E' ∨ c = '+' ∨ c = '-'

/-- The token-collecting loop of `read_non_negative_double` (at most 63
characters fit the buffer). -/
def read_double_chars (room : Nat) (acc : List Char) (s : Cursor) : List Char × Cursor :=
  match room, s with
  | 0, _ => (acc, s)
  | _, ⟨none, _⟩ => (acc, s)
  | room + 1, ⟨some c, rest⟩ =>
    if is_double_char c then
      match rest with
      | [] => read_double_chars room (acc ++ [c]) ⟨none, []⟩
      | x :: xs => read_double_chars room (acc ++ [c]) ⟨some x, xs⟩
    else (acc, s)

def digitsToNat (ds : List Char) : Nat :=
  ds.foldl (fun a c => a * 10 + (c.toNat - 48)) 0

/-- The exponent suffix accepted by `strtod` after `e`/`E`: an optional sign
and a nonempty digit run reaching the end of the token. -/
def parseExponentSuffix (mant : ℚ) (cs : List Char) : Option ℚ :=
  let sgn : ℤ := match cs with
    | c :: _ => if c = '-' then -1 else 1
    | [] => 1
  let cs1 := match cs with
    | c :: rest => if c = '-' ∨ c = '+' then rest else cs
    | [] => cs
  let d3 := cs1.takeWhile Char.isDigit
  let cs2 := cs1.dropWhile Char.isDigit
  if d3 = [] ∨ cs2 ≠ [] then none
  else some (mant * (10 : ℚ) ^ (sgn * (digitsToNat d3 : ℤ)))

/-- Models `strtod` on the collected token, demanding (as the source's
`end != buf + n` check does) that the whole token is consumed.  An empty token
is the source's no-conversion case: `strtod` returns `0` with `end == buf`,
which equals `buf + n` when `n = 0`, so the value is `0` without an error. -/
def parseDecimal (cs : List Char) : Option ℚ :=
  if cs = [] then some 0
  else
    let sgn : ℚ := match cs with
      | c :: _ => if c = '-' then -1 else 1
      | [] => 1
    let cs1 := match cs with
      | c :: rest => if c = '-' ∨ c = '+' then rest else cs
      | [] => cs
    let d1 := cs1.takeWhile Char.isDigit
    let cs2 := cs1.dropWhile Char.isDigit
    match cs2 with
    | [] => if d1 = [] then none else some (sgn * (digitsToNat d1 : ℚ))
    | c :: cs3 =>
      if c = '.' then
        let d2 := cs3.takeWhile Char.isDigit
        let cs4 := cs3.dropWhile Char.isDigit
        if d1 = [] ∧ d2 = [] then none
        else
          let mant : ℚ :=
            sgn * ((digitsToNat d1 : ℚ) + (digitsToNat d2 : ℚ) / (10 : ℚ) ^ d2.length)
          match cs4 with
          | [] => some mant
          | e :: cs5 => if e = 'e' ∨ e = 'E' then parseExponentSuffix mant cs5 else none
      else if (c = 'e' ∨ c = 'E') ∧ d1 ≠ [] then
        parseExponentSuffix (sgn * (digitsToNat d1 : ℚ)) cs3
      else none

/-- `read_non_negative_double`: collect the numeric token and convert it,
failing when the token does not fully parse or the value is negative. -/
def read_non_negative_double (s : Cursor) : Except String (ℚ × Cursor) :=
  let tc := read_double_chars 63 [] s
  match parseDecimal tc.1 with
  | none =>
    Except.error ("Not a non-negative real number: " ++ String.mk tc.1)
  | some v =>
    if v < 0 then Except.error ("Not a non-negative real number: " ++ String.mk tc.1)
    else Except.ok (v, tc.2)

/-- `read_parens_argument`. -/
def read_parens_argument (gate : Gate) (s : Cursor) : Except String (ℚ × Cursor) :=
  if s.cur ≠ some '(' then
    Except.error ("Gate " ++ gate.name ++ "(X) missing a parens argument.")
  else
    let s1 := read_past_within_line_whitespace s.advance
    match read_non_negative_double s1 with
    | Except.error e => Except.error e
    | Except.ok (v, s2) =>
      let s3 := read_past_within_line_whitespace s2
      if s3.cur ≠ some ')' then
        Except.error ("Gate " ++ gate.name ++ "(X) missing a closing parens for its argument.")
      else Except.ok (v, s3.advance)

/-- The digit-accumulating do-while loop of `read_uint24_t`, recursing on the
unread remainder. -/
def read_uint24_loop (acc : Nat) : Option Char → List Char → Except String (Nat × Cursor)
  | some c, rest =>
    if '0' ≤ c ∧ c ≤ '9' then
      let acc1 := acc * 10 + (c.toNat - 48)
      if acc1 ≥ 2 ^ 24 then Except.error "Number too large."
      else
        match rest with
        | [] => Except.ok (acc1, ⟨none, []⟩)
        | x :: xs =>
          if '0' ≤ x ∧ x ≤ '9' then read_uint24_loop acc1 (some x) xs
          else Except.ok (acc1, ⟨some x, xs⟩)
    else Except.ok (acc, ⟨some c, rest⟩)  -- not reached: callers enter on a digit
  | none, rest => Except.ok (acc, ⟨none, rest⟩)

/-- `read_uint24_t`: a base-10 unsigned integer strictly below `2^24`. -/
def read_uint24_t (s : Cursor) : Except String (Nat × Cursor) :=
  match s.cur with
  | some c =>
    if '0' ≤ c ∧ c ≤ '9' then read_uint24_loop 0 s.cur s.rest
    else Except.error ("Expected a digit but got " ++ String.mk [c])
  | none => Except.error "Expected a digit but got EOF"

/-- The comment-skipping do-while loop of `read_until_next_line_arg`
(`do c = read_char(); while (c != newline and c != EOF)`), recursing on the
unread remainder (the current character is consumed unconditionally). -/
def skip_line_comment_from : List Char → Cursor
  | [] => ⟨none, []⟩
  | x :: xs => if x = '\n' then ⟨some x, xs⟩ else skip_line_comment_from xs

def skip_line_comment (s : Cursor) : Cursor := skip_line_comment_from s.rest

/-- `read_until_next_line_arg`: demand spacing before a further target, skip
it and any trailing comment, and report whether another target follows on
this line. -/
def read_until_next_line_arg (s : Cursor) : Except String (Bool × Cursor) :=
  if ¬(s.cur = some ' ' ∨ s.cur = some '#' ∨ s.cur = some '\t' ∨ s.cur = some '\n' ∨
      s.cur = some lbrace ∨ s.cur = none) then
    Except.error "Gate targets must be separated by spacing."
  else
    let s1 := read_past_within_line_whitespace s
    let s2 := if s1.cur = some '#' then skip_line_comment s1 else s1
    Except.ok (decide (s2.cur ≠ some '\n' ∧ s2.cur ≠ some lbrace ∧ s2.cur ≠ none), s2)

/-- `read_raw_qubit_target_into`: read a qubit index, append the raw word and
update `num_qubits`. -/
def read_raw_qubit_target_into (s : Cursor) (circuit : Circuit) :
    Except String (Circuit × Cursor) :=
  match read_uint24_t s with
  | Except.error e => Except.error e
  | Except.ok (q, s1) =>
    Except.ok ({ circuit with jagged_data := circuit.jagged_data ++ [q],
                              num_qubits := max circuit.num_qubits (q + 1) }, s1)

/-- `read_record_target_into`: read `q` (updating `num_qubits` first), then an
optional — or, if `required`, mandatory — `@-dt` lookback suffix with
`dt ∈ 1..15`, and append `q ||| (dt <<< TARGET_RECORD_SHIFT)`. -/
def read_record_target_into (s : Cursor) (circuit : Circuit) (required : Bool) :
    Except String (Circuit × Cursor) :=
  match read_uint24_t s with
  | Except.error e => Except.error e
  | Except.ok (q, s1) =>
    let c1 := { circuit with num_qubits := max circuit.num_qubits (q + 1) }
    if s1.cur = some '@' then
      let s2 := s1.advance
      if s2.cur ≠ some '-' then
        Except.error "Missing - after @ in record target (like '2@-3')"
      else
        match read_uint24_t s2.advance with
        | Except.error e => Except.error e
        | Except.ok (dt, s3) =>
          if dt = 0 then
            Except.error "Minimum lookback in record target (like 2@-3) is -1, not -0."
          else if dt ≥ 16 then
            Except.error "Maximum lookback in record target (like 2@-3) is -15."
          else
            Except.ok ({ c1 with
              jagged_data := c1.jagged_data ++ [q ||| (dt <<< TARGET_RECORD_SHIFT)] }, s3)
    else if required then
      Except.error "Missing @ in record target (like '2@-3')"
    else
      Except.ok ({ c1 with jagged_data := c1.jagged_data ++ [q] }, s1)

/-- `read_raw_qubit_targets_into`. -/
def read_raw_qubit_targets_into : Nat → Circuit → Cursor → Except String (Circuit × Cursor)
  | 0, _, _ => Except.error "Recursion bound exceeded while reading targets."
  | fuel + 1, circuit, s =>
    match read_until_next_line_arg s with
    | Except.error e => Except.error e
    | Except.ok (false, s1) => Except.ok (circuit, s1)
    | Except.ok (true, s1) =>
      match read_raw_qubit_target_into s1 circuit with
      | Except.error e => Except.error e
      | Except.ok (c1, s2) => read_raw_qubit_targets_into fuel c1 s2

/-- `read_classically_controllable_qubit_targets_into`. -/
def read_classically_controllable_qubit_targets_into :
    Nat → Circuit → Cursor → Except String (Circuit × Cursor)
  | 0, _, _ => Except.error "Recursion bound exceeded while reading targets."
  | fuel + 1, circuit, s =>
    match read_until_next_line_arg s with
    | Except.error e => Except.error e
    | Except.ok (false, s1) => Except.ok (circuit, s1)
    | Except.ok (true, s1) =>
      match read_record_target_into s1 circuit false with
      | Except.error e => Except.error e
      | Except.ok (c1, s2) => read_classically_controllable_qubit_targets_into fuel c1 s2

/-- `read_pauli_targets_into`: `X`/`Y`/`Z` (either case) immediately followed
by a qubit index. -/
def read_pauli_targets_into : Nat → Circuit → Cursor → Except String (Circuit × Cursor)
  | 0, _, _ => Except.error "Recursion bound exceeded while reading targets."
  | fuel + 1, circuit, s =>
    match read_until_next_line_arg s with
    | Except.error e => Except.error e
    | Except.ok (false, s1) => Except.ok (circuit, s1)
    | Except.ok (true, s1) =>
      let m : Except String Nat :=
        if s1.cur = some 'X' ∨ s1.cur = some 'x' then Except.ok TARGET_PAULI_X_MASK
        else if s1.cur = some 'Y' ∨ s1.cur = some 'y' then
          Except.ok (TARGET_PAULI_X_MASK ||| TARGET_PAULI_Z_MASK)
        else if s1.cur = some 'Z' ∨ s1.cur = some 'z' then Except.ok TARGET_PAULI_Z_MASK
        else Except.error "Expected a Pauli (X or Y or Z)"
      match m with
      | Except.error e => Except.error e
      | Except.ok mask =>
        let s2 := s1.advance
        if s2.cur = some ' ' then
          Except.error "Unexpected space after Pauli before target qubit index."
        else
          match read_uint24_t s2 with
          | Except.error e => Except.error e
          | Except.ok (q, s3) =>
            read_pauli_targets_into fuel
              { circuit with jagged_data := circuit.jagged_data ++ [q ||| mask],
                             num_qubits := max circuit.num_qubits (q + 1) } s3

/-- `read_result_targets_into`: an optional `!` inversion prefix, then a qubit
index; each target increments `num_measurements`. -/
def read_result_targets_into : Nat → Circuit → Cursor → Except String (Circuit × Cursor)
  | 0, _, _ => Except.error "Recursion bound exceeded while reading targets."
  | fuel + 1, circuit, s =>
    match read_until_next_line_arg s with
    | Except.error e => Except.error e
    | Except.ok (false, s1) => Except.ok (circuit, s1)
    | Except.ok (true, s1) =>
      let flipped : Nat := if s1.cur = some '!' then 2 ^ 31 else 0
      let s1b := if s1.cur = some '!' then s1.advance else s1
      match read_uint24_t s1b with
      | Except.error e => Except.error e
      | Except.ok (q, s2) =>
        read_result_targets_into fuel
          { circuit with num_qubits := max circuit.num_qubits (q + 1),
                         jagged_data := circuit.jagged_data ++ [q ^^^ flipped],
                         num_measurements := circuit.num_measurements + 1 } s2

/-- `read_record_targets_into`. -/
def read_record_targets_into : Nat → Circuit → Cursor → Except String (Circuit × Cursor)
  | 0, _, _ => Except.error "Recursion bound exceeded while reading targets."
  | fuel + 1, circuit, s =>
    match read_until_next_line_arg s with
    | Except.error e => Except.error e
    | Except.ok (false, s1) => Except.ok (circuit, s1)
    | Except.ok (true, s1) =>
      match read_record_target_into s1 circuit true with
      | Except.error e => Except.error e
      | Except.ok (c1, s2) => read_record_targets_into fuel c1 s2

/-- The plain-number target loop in the final `else` of
`circuit_read_single_operation` (block gates: `REPEAT`'s repetition count) —
pushes raw numbers without touching `num_qubits`. -/
def read_plain_number_targets_into : Nat → Circuit → Cursor → Except String (Circuit × Cursor)
  | 0, _, _ => Except.error "Recursion bound exceeded while reading targets."
  | fuel + 1, circuit, s =>
    match read_until_next_line_arg s with
    | Except.error e => Except.error e
    | Except.ok (false, s1) => Except.ok (circuit, s1)
    | Except.ok (true, s1) =>
      match read_uint24_t s1 with
      | Except.error e => Except.error e
      | Except.ok (q, s2) =>
        read_plain_number_targets_into fuel
          { circuit with jagged_data := circuit.jagged_data ++ [q] } s2

/-- Models C `isspace` for the byte values the parser can see. -/
def c_isspace (c : Char) : Bool :=
  c = ' ' ∨ c = '\t' ∨ c = '\n' ∨ c = Char.ofNat 11 ∨ c = Char.ofNat 12 ∨ c = '\r'

/-- The whitespace-skipping inner loop of
`read_past_dead_space_between_commands`, recursing on the unread remainder. -/
def skip_isspace_from : Option Char → List Char → Cursor
  | some c, rest =>
    if c_isspace c then
      match rest with
      | [] => ⟨none, []⟩
      | x :: xs => skip_isspace_from (some x) xs
    else ⟨some c, rest⟩
  | none, rest => ⟨none, rest⟩

def skip_isspace (s : Cursor) : Cursor := skip_isspace_from s.cur s.rest

/-- The comment-consuming inner loop of
`read_past_dead_space_between_commands` (`while c != newline and c != EOF`),
recursing on the unread remainder. -/
def skip_comment_chars_from : Option Char → List Char → Cursor
  | some c, rest =>
    if c = '\n' then ⟨some c, rest⟩
    else
      match rest with
      | [] => ⟨none, []⟩
      | x :: xs => skip_comment_chars_from (some x) xs
  | none, rest => ⟨none, rest⟩

def skip_comment_chars (s : Cursor) : Cursor := skip_comment_chars_from s.cur s.rest

/-- `read_past_dead_space_between_commands` (bounded by `fuel` outer
iterations, one per comment line). -/
def read_past_dead_space_between_commands : Nat → Cursor → Cursor
  | 0, s => s
  | fuel + 1, s =>
    let s1 := skip_isspace s
    match s1.cur with
    | none => s1
    | some c =>
      if c ≠ '#' then s1
      else read_past_dead_space_between_commands fuel (skip_comment_chars s1)

/-- `circuit_read_single_operation`: gate name, optional parens argument, the
flag-selected target list, block-brace discipline, pair validation, and the
final operation push. -/
def circuit_read_single_operation (fuel : Nat) (circuit : Circuit) (s : Cursor) :
    Except String (Circuit × Cursor) :=
  match read_gate_name s with
  | Except.error e => Except.error e
  | Except.ok (gate, s1) =>
    let argRead : Except String (ℚ × Cursor) :=
      if gate.flags.takes_parens_argument then
        read_parens_argument gate (read_past_within_line_whitespace s1)
      else Except.ok (0, s1)
    match argRead with
    | Except.error e => Except.error e
    | Except.ok (val, s2) =>
      let offset := circuit.jagged_data.length
      let targetsRead : Except String (Circuit × Cursor) :=
        if ¬(gate.flags.is_block ∨ gate.flags.only_targets_measurement_record ∨
            gate.flags.produces_results ∨ gate.flags.targets_pauli_string ∨
            gate.flags.can_target_measurement_record) then
          read_raw_qubit_targets_into fuel circuit s2
        else if gate.flags.only_targets_measurement_record then
          read_record_targets_into fuel circuit s2
        else if gate.flags.can_target_measurement_record then
          read_classically_controllable_qubit_targets_into fuel circuit s2
        else if gate.flags.produces_results then
          read_result_targets_into fuel circuit s2
        else if gate.flags.targets_pauli_string then
          read_pauli_targets_into fuel circuit s2
        else
          read_plain_number_targets_into fuel circuit s2
      match targetsRead with
      | Except.error e => Except.error e
      | Except.ok (c1, s3) =>
        if s3.cur ≠ some lbrace ∧ (gate.flags.is_block ∧ s3.cur ≠ some lbrace) then
          Except.error ("Missing '\x7b' at start of " ++ gate.name ++ " block.")
        else if s3.cur = some lbrace ∧ gate.flags.is_block = false then
          Except.error ("Unexpected '\x7b' after non-block command " ++ gate.name ++ ".")
        else
          let num_targets := c1.jagged_data.length - offset
          if gate.flags.targets_pairs ∧ num_targets % 2 = 1 then
            Except.error
              ("Two qubit gate " ++ gate.name ++ " applied to an odd number of targets.")
          else
            match (if gate.flags.targets_pairs then
                pairs_self_check gate.name ((c1.jagged_data.drop offset).take num_targets)
              else none) with
            | some e => Except.error e
            | none =>
              Except.ok ({ c1 with
                operations := c1.operations ++ [⟨gate, val, offset, num_targets⟩] }, s3)

inductive ReadCondition where
  | read_as_little_as_possible
  | read_until_end_of_block
  | read_until_end_of_file
deriving DecidableEq, Repr

/-- `circuit_read_operations`: the operation-reading do-while loop, with the
`REPEAT` special case (count target popped, block body read recursively,
measurements scaled, body operations replicated, fusion disabled across the
boundary) and in-place adjacent fusion. -/
def circuit_read_operations (fuel : Nat) (circuit : Circuit) (s : Cursor)
    (read_condition : ReadCondition) (can_fuse : Bool) :
    Except String (Circuit × Cursor) :=
  match fuel with
  | 0 => Except.error "Recursion bound exceeded while reading operations."
  | fuel + 1 =>
    let s1 := read_past_dead_space_between_commands (s.advance.rest.length + 1) s.advance
    match s1.cur with
    | none =>
      if read_condition = ReadCondition.read_until_end_of_block then
        Except.error "Unterminated block. Got a '\x7b' without an eventual '\x7d'."
      else Except.ok (circuit, s1)
    | some c =>
      if c = rbrace then
        if read_condition ≠ ReadCondition.read_until_end_of_block then
          Except.error "Uninitiated block. Got a '\x7d' without a '\x7b'."
        else Except.ok (circuit, s1)
      else
        let sIdx := circuit.operations.length
        match circuit_read_single_operation fuel circuit s1 with
        | Except.error e => Except.error e
        | Except.ok (c1, s2) =>
          match c1.operations.get? sIdx with
          | none => Except.error "Internal invariant failure: no operation was appended."
          | some opS =>
            if opS.gate.id = gate_name_to_id "REPEAT" then
              if opS.length ≠ 1 then
                Except.error
                  "Invalid instruction. Expected one repetition arg like 'REPEAT 100 \x7b'."
              else
                match c1.jagged_data.getLast? with
                | none => Except.error "Internal invariant failure: empty arena after REPEAT."
                | some rep_count =>
                  let c2 := { c1 with jagged_data := c1.jagged_data.dropLast,
                                      operations := c1.operations.dropLast }
                  if rep_count = 0 then
                    Except.error "Repeating 0 times is not supported."
                  else
                    let ops_start := c2.operations.length
                    let num_measure_start := c2.num_measurements
                    match circuit_read_operations fuel c2 s2
                        ReadCondition.read_until_end_of_block false with
                    | Except.error e => Except.error e
                    | Except.ok (c3, s3) =>
                      let ops_end := c3.operations.length
                      let c4 := { c3 with num_measurements := c3.num_measurements +
                        (c3.num_measurements - num_measure_start) * (rep_count - 1) }
                      let body := (c4.operations.drop ops_start).take (ops_end - ops_start)
                      let c5 := { c4 with operations :=
                        c4.operations ++ (List.replicate (rep_count - 1) body).flatten }
                      if read_condition = ReadCondition.read_as_little_as_possible then
                        Except.ok (c5, s3)
                      else circuit_read_operations fuel c5 s3 read_condition false
            else
              let fused : Option Circuit :=
                if can_fuse then
                  match c1.operations.get? (sIdx - 1) with
                  | some opPrev =>
                    if opPrev.can_fuse opS then
                      some { c1 with operations :=
                        (c1.operations.set (sIdx - 1)
                          { opPrev with length := opPrev.length + opS.length }).dropLast }
                    else none
                  | none => none
                else none
              match fused with
              | some c2 =>
                if read_condition = ReadCondition.read_as_little_as_possible then
                  Except.ok (c2, s2)
                else circuit_read_operations fuel c2 s2 read_condition can_fuse
              | none =>
                if read_condition = ReadCondition.read_as_little_as_possible then
                  Except.ok (c1, s2)
                else circuit_read_operations fuel c1 s2 read_condition true

/-- `Circuit::append_from_text`: run the reader to end of input on this
circuit; the returned flag says whether any operation was appended. -/
def Circuit.append_from_text (c : Circuit) (text : String) :
    Except String (Circuit × Bool) :=
  match circuit_read_operations (2 * text.length + 4) c ⟨none, text.toList⟩
      ReadCondition.read_until_end_of_file false with
  | Except.error e => Except.error e
  | Except.ok (c1, _) => Except.ok (c1, c1.operations.length > c.operations.length)

/-- `Circuit::from_text`. -/
def Circuit.from_text (text : String) : Except String Circuit :=
  match Circuit.empty.append_from_text text with
  | Except.error e => Except.error e
  | Except.ok (c, _) => Except.ok c

/-! ## Textual rendering (`operator<<`) -/

/-- Modelled from the spec (§4.5): the rendering of a non-integral scalar
argument.  The source prints it through `std::ostream << double`, whose exact
format (six significant digits) the spec does not pin down; the theorems in
this file only ever render operations whose argument takes the integral
branch, so this fallback is never evaluated by a proof. -/
def double_repr (a : ℚ) : String :=
  toString a.num ++ "/" ++ toString a.den

/-- The argument part of `operator<<(std::ostream&, const Operation&)`:
nothing for `arg == 0`, otherwise `(arg)` with the integral value printed as
`size_t` when `(size_t)arg == arg`. -/
def arg_repr (a : ℚ) : String :=
  if a = 0 then ""
  else
    "(" ++ (if a.den = 1 ∧ 0 ≤ a then toString a.num.toNat else double_repr a) ++ ")"

/-- One rendered target of `operator<<(std::ostream&, const Operation&)`,
selected by the owning gate's flags. -/
def target_repr (flags : GateFlags) (t : Nat) : String :=
  if flags.produces_results then
    (if t &&& (2 ^ 31) ≠ 0 then "!" else "") ++ toString (t &&& (2 ^ 31 - 1))
  else if flags.targets_pauli_string then
    let x := t &&& TARGET_PAULI_X_MASK ≠ 0
    let z := t &&& TARGET_PAULI_Z_MASK ≠ 0
    String.mk [(['I', 'X', 'Z', 'Y']).getD
      ((if x then 1 else 0) + (if z then 2 else 0)) 'I'] ++ toString (t &&& TARGET_QUBIT_MASK)
  else
    toString (t &&& TARGET_QUBIT_MASK) ++
    (if t &&& TARGET_RECORD_MASK ≠ 0 then
      "@-" ++ toString ((t &&& TARGET_RECORD_MASK) >>> TARGET_RECORD_SHIFT)
    else "")

/-- `operator<<(std::ostream&, const Operation&)`: canonical gate name,
optional argument, space-separated targets. -/
def op_repr (c : Circuit) (op : Operation) : String :=
  op.gate.name ++ arg_repr op.arg ++
  String.join ((c.opTargets op).map fun t => " " ++ target_repr op.gate.flags t)

/-- `operator<<(std::ostream&, const Circuit&)` / `Circuit::str`: the header
line followed by one line per operation. -/
def Circuit.str (c : Circuit) : String :=
  "# Circuit [num_qubits=" ++ toString c.num_qubits ++ ", num_measurements=" ++
    toString c.num_measurements ++ "]" ++
  String.join (c.operations.map fun op => "\n" ++ op_repr c op)

/-! ## Claim-level (specification-side) definitions

These definitions render the spec's wording, for comparison with the
source-level definitions above. -/

/-- Sum of target counts over operations whose gate has
`GATE_PRODUCES_RESULTS` — what the spec says `num_measurements` always
equals. -/
def measureSum (c : Circuit) : Nat :=
  c.operations.foldl (fun a op => if op.gate.flags.produces_results then a + op.length else a) 0

/-- The spec's invariant: no two adjacent operations both satisfy fusability
(`Operation::can_fuse` on the earlier one). -/
def noAdjacentFusable : List Operation → Bool
  | a :: b :: rest => !a.can_fuse b && noAdjacentFusable (b :: rest)
  | _ => true

/-- All operation gates of a list are catalog entries (every constructor of
an operation looks its gate up in `GATE_DATA`). -/
def gatesOk (l : List Operation) : Bool :=
  l.all fun op => decide (op.gate ∈ GATE_DATA)

/-- The claim's reading of "no adjacent pair has equal qubit indices": the
target list, taken two at a time, never pairs a word with an equal word. -/
def pairsDistinct : List Nat → Bool
  | a :: b :: rest => a ≠ b && pairsDistinct rest
  | _ => true

/-- One `append_op` call: gate name, target words, argument (fusing is
allowed, as in the parser-facing use of the builder). -/
def runAppends (c : Circuit) : List (String × List Nat × ℚ) → Except (String × Circuit) Circuit
  | [] => Except.ok c
  | (n, v, a) :: rest =>
    match c.append_op n v a true with
    | Except.error e => Except.error e
    | Except.ok c1 => runAppends c1 rest

/-- The view of an operation list the detector/observable pass consumes:
gate, argument, materialized target words. -/
def opViews (c : Circuit) : List (Gate × ℚ × List Nat) :=
  c.operations.map fun op => (op.gate, op.arg, c.opTargets op)

/-- Dispatch predicate for the measurement-recording branch of the resolver
walk. -/
def isResultView (o : Gate × ℚ × List Nat) : Bool := o.1.flags.produces_results

/-- Dispatch predicate for the `DETECTOR` branch. -/
def isDetectorView (o : Gate × ℚ × List Nat) : Bool :=
  !o.1.flags.produces_results && (o.1.id == gate_name_to_id "DETECTOR")

/-- Dispatch predicate for the `OBSERVABLE_INCLUDE` branch. -/
def isObservableView (o : Gate × ℚ × List Nat) : Bool :=
  !o.1.flags.produces_results && !(o.1.id == gate_name_to_id "DETECTOR") &&
  (o.1.id == gate_name_to_id "OBSERVABLE_INCLUDE")

/-- The spec's global measurement tape: the result-producing target words of
an operation list, flattened in program order, so that position in this list
is the global 0-based measurement index. -/
def measTape : List (Gate × ℚ × List Nat) → List Nat
  | [] => []
  | o :: rest => (if isResultView o then o.2.2 else []) ++ measTape rest

/-- The global measurement indices (counted from `i0`) of the tape positions
whose target's qubit field is `q` — the spec's per-qubit measurement-index
list. -/
def qIdxList (q : Nat) (i0 : Nat) : List Nat → List Nat
  | [] => []
  | t :: rest =>
    (if t &&& TARGET_QUBIT_MASK = q then [i0] else []) ++ qIdxList q (i0 + 1) rest

/-- The record lookback field of a target word. -/
def specDt (t : Nat) : Nat := (t &&& TARGET_RECORD_MASK) >>> TARGET_RECORD_SHIFT

/-- The spec's resolution of one record target against the operations before
it: the element at position `len − dt` of its qubit's measurement-index
list. -/
def specResolveTarget (pre : List (Gate × ℚ × List Nat)) (t : Nat) : Nat :=
  let l := qIdxList (t &&& TARGET_QUBIT_MASK) 0 (measTape pre)
  l.getD (l.length - specDt t) 0

/-- The spec's detector sets: one resolved target list per `DETECTOR`
operation, in program order, each resolved against the operations before
it. -/
def specDetectors (pre : List (Gate × ℚ × List Nat)) :
    List (Gate × ℚ × List Nat) → List (List Nat)
  | [] => []
  | o :: rest =>
    (if isDetectorView o then [o.2.2.map (specResolveTarget pre)] else []) ++
    specDetectors (pre ++ [o]) rest

/-- The observable index an `OBSERVABLE_INCLUDE` operation addresses. -/
def obsIndexOf (o : Gate × ℚ × List Nat) : Nat := ratTruncToNat o.2.1

/-- The spec's observable set for index `k`: the concatenation, in program
order, of resolved targets of every `OBSERVABLE_INCLUDE` whose argument
equals `k`. -/
def specObsEntry (pre : List (Gate × ℚ × List Nat)) (k : Nat) :
    List (Gate × ℚ × List Nat) → List Nat
  | [] => []
  | o :: rest =>
    (if isObservableView o ∧ obsIndexOf o = k then o.2.2.map (specResolveTarget pre) else []) ++
    specObsEntry (pre ++ [o]) k rest

/-- The length of the returned observable list: indices are filled on demand
up to the largest addressed index. -/
def specObsLen : List (Gate × ℚ × List Nat) → Nat
  | [] => 0
  | o :: rest => max (if isObservableView o then obsIndexOf o + 1 else 0) (specObsLen rest)

/-- The hypotheses under which the resolver is claimed to succeed: every
record target of a `DETECTOR`/`OBSERVABLE_INCLUDE` operation has a lookback
`dt` with `1 ≤ dt ≤` the number of prior measurements on its qubit, and every
`OBSERVABLE_INCLUDE` argument is a non-negative integer. -/
def cleanViews (pre : List (Gate × ℚ × List Nat)) :
    List (Gate × ℚ × List Nat) → Bool
  | [] => true
  | o :: rest =>
    ((!(isDetectorView o || isObservableView o)) ||
      o.2.2.all fun t =>
        1 ≤ specDt t ∧
        specDt t ≤ (qIdxList (t &&& TARGET_QUBIT_MASK) 0 (measTape pre)).length) &&
    ((!isObservableView o) || ((o.2.1.den = 1 : Bool) && (0 ≤ o.2.1 : Bool))) &&
    cleanViews (pre ++ [o]) rest

instance {ε α : Type} [DecidableEq ε] [DecidableEq α] : DecidableEq (Except ε α) := fun a b =>
  match a, b with
  | Except.ok x, Except.ok y =>
    if h : x = y then isTrue (by rw [h]) else isFalse (by intro hc; cases hc; exact h rfl)
  | Except.error x, Except.error y =>
    if h : x = y then isTrue (by rw [h]) else isFalse (by intro hc; cases hc; exact h rfl)
  | Except.ok _, Except.error _ => isFalse (by intro hc; cases hc)
  | Except.error _, Except.ok _ => isFalse (by intro hc; cases hc)

set_option maxRecDepth 100000

set_option maxHeartbeats 2000000

/-! ## Claim theorems -/

/-- C1: the claimed round-trip law fails on the code.  The circuit parsed from
`REPEAT 2 { H 0 }` is obtained by a successful parse and holds two adjacent
`H` operations (REPEAT expansion deliberately skips fusion); its textual
rendering lists `H 0` twice, and re-parsing fuses those lines into a single
operation, so the re-parsed circuit has one operation where the original had
two and `Circuit::operator==` is false. -/
theorem C1_roundtrip_fails_on_repeat_expansion :
    (match Circuit.from_text "REPEAT 2 \x7b\nH 0\n\x7d\n" with
     | Except.ok c =>
       (match Circuit.from_text c.str with
        | Except.ok c2 => some (circuitEq c2 c, c.operations.length, c2.operations.length)
        | Except.error _ => none)
     | Except.error _ => none) = some (false, 2, 1) := by decide

/-- C2: `REPEAT k { body }` is not equivalent to writing `body` out `k` times.
With `body = M 0` and `k = 2`, the REPEAT form parses to two separate one-target
`M` operations while the written-out form parses to a single fused two-target
`M` operation, so the operation sequences differ element-wise (the
`num_measurements` totals agree, both 2); `REPEAT 0` is indeed rejected. -/
theorem C2_repeat_vs_written_out_diverges :
    (match Circuit.from_text "REPEAT 2 \x7b\nM 0\n\x7d\n", Circuit.from_text "M 0\nM 0\n" with
     | Except.ok cr, Except.ok cw =>
       some (cr.operations.length, cw.operations.length,
         cr.num_measurements, cw.num_measurements)
     | _, _ => none) = some (2, 1, 2, 2) ∧
    Circuit.from_text "REPEAT 0 \x7b\nH 0\n\x7d\n" =
      Except.error "Repeating 0 times is not supported." := by decide

/-- C3: the measurement-accounting invariant is broken by
`Circuit::append_circuit` with a distinct source and repetition count 2: the
replication loop copies the operations without updating `num_measurements`,
leaving `num_measurements = 1` while the sum of target counts over
result-producing operations is 2. -/
theorem C3_append_circuit_undercounts_measurements :
    (match Circuit.from_text "M 0\n" with
     | Except.ok s =>
       some ((Circuit.empty.append_circuit s 2).num_measurements,
         measureSum (Circuit.empty.append_circuit s 2))
     | Except.error _ => none) = some (1, 2) := by decide

/-- C4 counterexample: a circuit reachable by a successful parse (namely of
`REPEAT 2 { H 0 }`) whose two adjacent operations both satisfy fusability,
refuting the claimed invariant. -/
theorem C4_counterexample_repeat_creates_fusable_pair :
    (match Circuit.from_text "REPEAT 2 \x7b\nH 0\n\x7d\n" with
     | Except.ok c => noAdjacentFusable c.operations
     | Except.error _ => true) = false := by decide

/-- C7 counterexample: parsing a gate lacking `TAKES_PARENS_ARGUMENT` followed
by `(0)` does not succeed with `arg = 0` as claimed — the parser rejects the
`(` outright, exactly as it does for `(0.5)`. -/
theorem C7_counterexample_parens_zero_rejected :
    Circuit.from_text "H(0) 0\n" =
      Except.error "Gate targets must be separated by spacing." := by decide

/-- C8 counterexample: `Circuit::append_circuit` with repetition count 0 does
not clear the target circuit — it is an early-return no-op, so a one-operation
target still has its operation afterwards. -/
theorem C8_counterexample_append_zero_not_clear :
    (match Circuit.from_text "H 0\n", Circuit.from_text "M 0\n" with
     | Except.ok c, Except.ok s => some ((c.append_circuit s 0).operations.length)
     | _, _ => none) = some 1 := by decide

/-- C8 (amended): `append_circuit` with repetition count 0 leaves the circuit
unchanged; it is `Circuit::operator*=` with count 0 that clears — afterwards
there are no operations, the arena is empty, and `num_qubits` and
`num_measurements` are 0. -/
theorem C8_append_zero_noop_and_mul_zero_clears (c other : Circuit) :
    c.append_circuit other 0 = c ∧
    (c.mulAssign 0).operations = [] ∧ (c.mulAssign 0).jagged_data = [] ∧
    (c.mulAssign 0).num_qubits = 0 ∧ (c.mulAssign 0).num_measurements = 0 := by
  refine ⟨?_, ?_, ?_, ?_, ?_⟩ <;> simp [Circuit.append_circuit, Circuit.mulAssign, Circuit.clear]

/-! ### Helper lemmas about the builder -/

theorem gateDataAt_mem {n : String} {g : Gate} (h : gateDataAt n = Except.ok g) :
    g ∈ GATE_DATA := by
  unfold gateDataAt at h
  split at h
  · rename_i g' hfind
    cases h
    exact List.mem_of_find?_eq_some hfind
  · cases h

/-- Catalog gate names determine the descriptor. -/
theorem catalog_lookup : ∀ g ∈ GATE_DATA, gateDataAt g.name = Except.ok g := by decide

/-- Catalog gate ids determine the descriptor. -/
theorem catalog_id_inj : ∀ g1 ∈ GATE_DATA, ∀ g2 ∈ GATE_DATA, g1.id = g2.id → g1 = g2 := by
  decide

theorem pairs_self_check_none_iff (n : String) :
    ∀ l, pairs_self_check n l = none ↔ pairsDistinct l = true
  | [] => by simp [pairs_self_check, pairsDistinct]
  | [a] => by simp [pairs_self_check, pairsDistinct]
  | a :: b :: rest => by
    by_cases hab : a = b
    · simp [pairs_self_check, pairsDistinct, hab]
    · simp [pairs_self_check, pairsDistinct, hab, pairs_self_check_none_iff n rest]

theorem first_invalid_target_none (mask : Nat) (n : String) :
    ∀ l, (∀ q ∈ l, q &&& mask = q) → first_invalid_target mask n l = none
  | [] => fun _ => rfl
  | q :: rest => fun h => by
    have hq : ¬(q ≠ (q &&& mask)) := fun hc => hc (h q (List.mem_cons_self q rest)).symm
    simp only [first_invalid_target, if_neg hq]
    exact first_invalid_target_none mask n rest fun x hx => h x (List.mem_cons_of_mem q hx)

/-- C10: `Circuit::append_op` is atomic on failure — every validation (gate
lookup, pair arity and self-interaction, parens-argument discipline, target
flag bits) happens before any mutation, so when the call raises, the circuit
carried out of the throw site is exactly the circuit passed in. -/
theorem C10_append_op_atomic_on_failure (c : Circuit) (gate_name : String)
    (vec : List Nat) (arg : ℚ) (allow_fusing : Bool) (e : String) (c' : Circuit)
    (h : c.append_op gate_name vec arg allow_fusing = Except.error (e, c')) : c' = c := by
  unfold Circuit.append_op at h
  split at h
  · cases h; rfl
  · split at h
    · cases h; rfl
    · split at h
      · cases h; rfl
      · split at h
        · cases h; rfl
        · split at h
          · cases h; rfl
          · cases h

/-- Witness for C10 at a concrete failing call: appending `CNOT 0 0` to the
empty circuit raises and leaves the circuit untouched. -/
theorem C10_append_op_atomic_on_failure_witness : Circuit.empty = Circuit.empty :=
  C10_append_op_atomic_on_failure Circuit.empty "CNOT" [0, 0] 0 true
    "Interacting a target with itself 0 using gate CNOT." Circuit.empty (by decide)

/-- Parse halves of the parens-discipline claim, checked over every catalog
gate lacking `TAKES_PARENS_ARGUMENT`. -/
theorem c7_parse_half : ∀ g ∈ GATE_DATA, g.flags.takes_parens_argument = false →
    (Circuit.from_text (g.name ++ "(0.5)")).isOk = false ∧
    (Circuit.from_text (g.name ++ "(0)")).isOk = false := by decide

theorem append_op_nil_arg_zero_isOk (c : Circuit) (n : String) (g : Gate)
    (hg : gateDataAt n = Except.ok g) : (c.append_op n [] 0 true).isOk = true := by
  unfold Circuit.append_op
  rw [hg]
  simp [pairs_self_check, first_invalid_target, Except.isOk, Except.toBool]

theorem append_op_nil_arg_nonzero_err (c : Circuit) (n : String) (g : Gate)
    (hg : gateDataAt n = Except.ok g) (hfl : g.flags.takes_parens_argument = false)
    (arg : ℚ) (ha : arg ≠ 0) : (c.append_op n [] arg true).isOk = false := by
  unfold Circuit.append_op
  rw [hg]
  simp [pairs_self_check, hfl, ha, Except.isOk, Except.toBool]

/-- C7 (amended): for every catalog gate lacking `TAKES_PARENS_ARGUMENT`,
parsing the gate name followed by `(0.5)` fails, and parsing it followed by
`(0)` fails as well (the parser rejects the `(` outright for such a gate
rather than accepting a zero argument); the sense in which a zero argument is
legal on any gate is the builder's: `append_op` with `arg = 0` succeeds on
such a gate, while any `arg ≠ 0` fails. -/
theorem C7_parens_discipline (g : Gate) (hg : g ∈ GATE_DATA)
    (hfl : g.flags.takes_parens_argument = false) :
    (Circuit.from_text (g.name ++ "(0.5)")).isOk = false ∧
    (Circuit.from_text (g.name ++ "(0)")).isOk = false ∧
    (∀ c : Circuit, (c.append_op g.name [] 0 true).isOk = true) ∧
    (∀ (c : Circuit) (arg : ℚ), arg ≠ 0 → (c.append_op g.name [] arg true).isOk = false) :=
  ⟨(c7_parse_half g hg hfl).1, (c7_parse_half g hg hfl).2,
   fun c => append_op_nil_arg_zero_isOk c g.name g (catalog_lookup g hg),
   fun c arg ha => append_op_nil_arg_nonzero_err c g.name g (catalog_lookup g hg) hfl arg ha⟩

/-- Witness for C7 at the gate `H` and the empty circuit. -/
theorem C7_parens_discipline_witness :
    (Circuit.from_text ((⟨0, "H", noFlags⟩ : Gate).name ++ "(0.5)")).isOk = false ∧
    (Circuit.empty.append_op (⟨0, "H", noFlags⟩ : Gate).name [] 0 true).isOk = true ∧
    (Circuit.empty.append_op (⟨0, "H", noFlags⟩ : Gate).name [] 1 true).isOk = false :=
  ⟨(C7_parens_discipline _ (by decide) rfl).1,
   (C7_parens_discipline _ (by decide) rfl).2.2.1 Circuit.empty,
   (C7_parens_discipline _ (by decide) rfl).2.2.2 Circuit.empty 1 one_ne_zero⟩

theorem append_op_odd_err (c : Circuit) (n : String) (g : Gate)
    (hg : gateDataAt n = Except.ok g) (hp : g.flags.targets_pairs = true)
    (vec : List Nat) (arg : ℚ) (fusing : Bool) (hodd : vec.length % 2 = 1) :
    (c.append_op n vec arg fusing).isOk = false := by
  unfold Circuit.append_op
  rw [hg]
  simp [hp, hodd, Except.isOk, Except.toBool]

theorem append_op_pair_equal_err (c : Circuit) (n : String) (g : Gate)
    (hg : gateDataAt n = Except.ok g) (hp : g.flags.targets_pairs = true)
    (vec : List Nat) (arg : ℚ) (fusing : Bool) (hne : pairsDistinct vec = false) :
    (c.append_op n vec arg fusing).isOk = false := by
  have hsome : pairs_self_check n vec ≠ none := fun hnone => by
    rw [(pairs_self_check_none_iff n vec).mp hnone] at hne
    cases hne
  obtain ⟨e, he⟩ := Option.ne_none_iff_exists'.mp hsome
  unfold Circuit.append_op
  rw [hg]
  by_cases hodd : vec.length % 2 = 1
  · simp [hp, hodd, Except.isOk, Except.toBool]
  · simp [hp, hodd, he, Except.isOk, Except.toBool]

theorem append_op_pairs_ok (c : Circuit) (n : String) (g : Gate)
    (hg : gateDataAt n = Except.ok g) (vec : List Nat)
    (hdist : pairsDistinct vec = true) (heven : vec.length % 2 = 0)
    (hmask : ∀ q ∈ vec, q &&& valid_target_mask g = q) :
    (c.append_op n vec 0 true).isOk = true := by
  have h1 : pairs_self_check n vec = none := (pairs_self_check_none_iff n vec).mpr hdist
  have h2 : first_invalid_target (valid_target_mask g) n vec = none :=
    first_invalid_target_none _ _ _ hmask
  unfold Circuit.append_op
  rw [hg]
  simp [heven, h1, h2, Except.isOk, Except.toBool]

/-- C6: for every catalog gate with `TARGETS_PAIRS`, building an operation via
`append_op` fails on an odd target count, fails whenever some adjacent pair
has equal words (for such gates the targets carry no flag bits, so word
equality is qubit equality), and succeeds on an even-length list of
pairwise-distinct pairs whose words pass the gate's target mask; and the
parser rejects `CNOT 0 0` (self-interaction) and `CNOT 0 1 2` (odd count)
while accepting `CNOT 0 1 2 3`. -/
theorem C6_pair_validation (g : Gate) (hg : g ∈ GATE_DATA)
    (hp : g.flags.targets_pairs = true) :
    (∀ (c : Circuit) (vec : List Nat) (arg : ℚ) (fusing : Bool), vec.length % 2 = 1 →
      (c.append_op g.name vec arg fusing).isOk = false) ∧
    (∀ (c : Circuit) (vec : List Nat) (arg : ℚ) (fusing : Bool), pairsDistinct vec = false →
      (c.append_op g.name vec arg fusing).isOk = false) ∧
    (∀ (c : Circuit) (vec : List Nat), pairsDistinct vec = true → vec.length % 2 = 0 →
      (∀ q ∈ vec, q &&& valid_target_mask g = q) →
      (c.append_op g.name vec 0 true).isOk = true) ∧
    (Circuit.from_text "CNOT 0 0\n").isOk = false ∧
    (Circuit.from_text "CNOT 0 1 2\n").isOk = false ∧
    (Circuit.from_text "CNOT 0 1 2 3\n").isOk = true :=
  ⟨fun c vec arg fusing hodd =>
      append_op_odd_err c g.name g (catalog_lookup g hg) hp vec arg fusing hodd,
   fun c vec arg fusing hne =>
      append_op_pair_equal_err c g.name g (catalog_lookup g hg) hp vec arg fusing hne,
   fun c vec hdist heven hmask =>
      append_op_pairs_ok c g.name g (catalog_lookup g hg) vec hdist heven hmask,
   by decide, by decide, by decide⟩

/-- Witness for C6 at the gate `CNOT`: an odd call, a self-interacting call
and a well-formed call, against the empty circuit. -/
theorem C6_pair_validation_witness :
    (Circuit.empty.append_op
      (⟨4, "CNOT", { noFlags with targets_pairs := true }⟩ : Gate).name [0] 0 true).isOk
        = false ∧
    (Circuit.empty.append_op
      (⟨4, "CNOT", { noFlags with targets_pairs := true }⟩ : Gate).name [0, 0] 0 true).isOk
        = false ∧
    (Circuit.empty.append_op
      (⟨4, "CNOT", { noFlags with targets_pairs := true }⟩ : Gate).name [0, 1, 2, 3] 0
        true).isOk = true :=
  ⟨(C6_pair_validation _ (by decide) rfl).1 Circuit.empty [0] 0 true (by decide),
   (C6_pair_validation _ (by decide) rfl).2.1 Circuit.empty [0, 0] 0 true (by decide),
   (C6_pair_validation _ (by decide) rfl).2.2.1 Circuit.empty [0, 1, 2, 3] (by decide)
     (by decide) (by decide)⟩

/-! ### Fusion-invariant lemmas for the builder -/

theorem incr_update_ops (c : Circuit) :
    (circuit_incremental_update_from_back c).operations = c.operations := by
  unfold circuit_incremental_update_from_back
  cases c.operations.getLast? with
  | none => rfl
  | some op =>
    simp only []
    split <;> rfl

theorem can_fuse_congr_right (a b b' : Operation) (hg : b'.gate.id = b.gate.id)
    (ha : b'.arg = b.arg) : a.can_fuse b' = a.can_fuse b := by
  unfold Operation.can_fuse
  rw [hg, ha]

theorem gatesOk_iff (l : List Operation) :
    gatesOk l = true ↔ ∀ op ∈ l, op.gate ∈ GATE_DATA := by
  simp [gatesOk]

theorem noAdjFusable_update_last : ∀ (l : List Operation) (b b' : Operation),
    b'.gate.id = b.gate.id → b'.arg = b.arg →
    noAdjacentFusable (l ++ [b]) = true → noAdjacentFusable (l ++ [b']) = true
  | [], b, b', _, _, _ => by simp [noAdjacentFusable]
  | [a], b, b', hg, ha, h => by
    simp only [List.cons_append, List.nil_append, noAdjacentFusable, Bool.and_eq_true] at h ⊢
    exact ⟨by rw [can_fuse_congr_right a b b' hg ha]; exact h.1, trivial⟩
  | a :: a2 :: l, b, b', hg, ha, h => by
    simp only [List.cons_append, noAdjacentFusable, Bool.and_eq_true] at h ⊢
    refine ⟨h.1, ?_⟩
    have ih := noAdjFusable_update_last (a2 :: l) b b' hg ha (by
      simpa [List.cons_append] using h.2)
    simpa [List.cons_append] using ih

theorem noAdjFusable_append_single : ∀ (l : List Operation) (x : Operation),
    noAdjacentFusable l = true →
    (∀ b, l.getLast? = some b → b.can_fuse x = false) →
    noAdjacentFusable (l ++ [x]) = true
  | [], x, _, _ => by simp [noAdjacentFusable]
  | [a], x, _, hlast => by
    simp only [List.cons_append, List.nil_append, noAdjacentFusable, Bool.and_eq_true]
    exact ⟨by simp [hlast a rfl], trivial⟩
  | a :: a2 :: l, x, h, hlast => by
    simp only [List.cons_append, noAdjacentFusable, Bool.and_eq_true] at h ⊢
    refine ⟨h.1, ?_⟩
    have ih := noAdjFusable_append_single (a2 :: l) x h.2 (fun b hb =>
      hlast b (by rw [List.getLast?_cons_cons]; exact hb))
    simpa [List.cons_append] using ih

theorem append_op_mutate_inv (c : Circuit) (g : Gate) (vec : List Nat) (arg : ℚ)
    (hgmem : g ∈ GATE_DATA)
    (hcat : gatesOk c.operations = true) (hfus : noAdjacentFusable c.operations = true) :
    gatesOk (c.append_op_mutate g vec arg true).operations = true ∧
    noAdjacentFusable (c.append_op_mutate g vec arg true).operations = true := by
  unfold Circuit.append_op_mutate
  cases hlast : c.operations.getLast? with
  | none =>
    -- no previous operation: the fuse condition is false and a fresh op is pushed
    have hnil : c.operations = [] := List.getLast?_eq_none_iff.mp hlast
    simp only [hlast, Bool.and_false, Bool.false_eq_true, if_false, incr_update_ops, hnil]
    constructor
    · simp [gatesOk, hgmem]
    · simp [noAdjacentFusable]
  | some b =>
    have hdecomp : c.operations.dropLast ++ [b] = c.operations :=
      List.dropLast_append_getLast? b (by rw [hlast]; rfl)
    have hbmem : b.gate ∈ GATE_DATA := by
      have hbl : b ∈ c.operations := by
        rw [← hdecomp]
        exact List.mem_append_right _ (List.mem_singleton.mpr rfl)
      exact (gatesOk_iff c.operations).mp hcat b hbl
    simp only [hlast]
    by_cases hf : (!g.flags.is_not_fusable && (b.gate.id == g.id && b.arg == arg)) = true
    · -- fusing branch: the last operation keeps its gate and arg
      simp only [Bool.true_and, hf, if_true, incr_update_ops]
      split <;>
      · constructor
        · rw [gatesOk_iff]
          intro op hop
          rcases List.mem_append.mp hop with hop1 | hop2
          · exact (gatesOk_iff c.operations).mp hcat op (by
              rw [← hdecomp]; exact List.mem_append_left _ hop1)
          · rw [List.mem_singleton.mp hop2]
            exact hbmem
        · exact noAdjFusable_update_last c.operations.dropLast b _ rfl rfl
            (by rw [hdecomp]; exact hfus)
    · -- push branch: the new last pair is not fusable
      have hf' : (!g.flags.is_not_fusable && (b.gate.id == g.id && b.arg == arg)) = false :=
        Bool.not_eq_true _ ▸ (Bool.eq_false_iff.mpr hf)
      simp only [Bool.true_and, hf', Bool.false_eq_true, if_false, incr_update_ops]
      constructor
      · rw [gatesOk_iff]
        intro op hop
        rcases List.mem_append.mp hop with hop1 | hop2
        · exact (gatesOk_iff c.operations).mp hcat op hop1
        · rw [List.mem_singleton.mp hop2]
          exact hgmem
      · refine noAdjFusable_append_single c.operations _ hfus ?_
        intro b0 hb0
        have hb0b : b0 = b := by rw [hlast] at hb0; cases hb0; rfl
        subst hb0b
        unfold Operation.can_fuse
        rcases Bool.and_eq_false_iff.mp hf' with hnf | hmatch
        · -- the new gate is NOT_FUSABLE; catalog ids pin the gates equal
          by_cases hid : (b0.gate.id == g.id) = true
          · have hbg : b0.gate = g := catalog_id_inj b0.gate hbmem g hgmem (by
              simpa using hid)
            rw [hbg]
            simp [hnf]
          · simp [Bool.eq_false_iff.mpr hid]
        · rcases Bool.and_eq_false_iff.mp hmatch with hid | harg
          · simp [hid]
          · simp [harg]

theorem append_op_preserves_inv (c c' : Circuit) (n : String) (v : List Nat) (a : ℚ)
    (h : c.append_op n v a true = Except.ok c')
    (hcat : gatesOk c.operations = true) (hfus : noAdjacentFusable c.operations = true) :
    gatesOk c'.operations = true ∧ noAdjacentFusable c'.operations = true := by
  unfold Circuit.append_op at h
  split at h
  · cases h
  · rename_i g hg
    split at h
    · cases h
    · split at h
      · cases h
      · split at h
        · cases h
        · split at h
          · cases h
          · cases h
            exact append_op_mutate_inv c g v a (gateDataAt_mem hg) hcat hfus

theorem runAppends_inv : ∀ (calls : List (String × List Nat × ℚ)) (c0 c : Circuit),
    gatesOk c0.operations = true → noAdjacentFusable c0.operations = true →
    runAppends c0 calls = Except.ok c →
    gatesOk c.operations = true ∧ noAdjacentFusable c.operations = true
  | [], c0, c, h1, h2, h => by
    cases h
    exact ⟨h1, h2⟩
  | (n, v, a) :: rest, c0, c, h1, h2, h => by
    unfold runAppends at h
    split at h
    · cases h
    · rename_i c1 hstep
      have hi := append_op_preserves_inv c0 c1 n v a hstep h1 h2
      exact runAppends_inv rest c1 c hi.1 hi.2 h

/-- C4 (amended): the no-adjacent-fusable invariant is maintained by the
`append_op` builder with `allow_fusing = true` — after any sequence of such
calls starting from the empty circuit, no two adjacent operations both satisfy
fusability.  The stated invariant does not survive the other construction
paths: REPEAT expansion during a parse (see the counterexample), a parse
appended after existing operations, `append_operation`, and `append_circuit`
can all leave adjacent fusable pairs. -/
theorem C4_append_op_no_adjacent_fusable (calls : List (String × List Nat × ℚ)) (c : Circuit)
    (h : runAppends Circuit.empty calls = Except.ok c) :
    noAdjacentFusable c.operations = true :=
  (runAppends_inv calls Circuit.empty c rfl rfl h).2

/-- Witness for C4 at a concrete builder run (`H 0`, `H 1`, `M 0`): the two
`H` calls fuse into one operation and no adjacent fusable pair remains. -/
theorem C4_append_op_no_adjacent_fusable_witness :
    noAdjacentFusable (Circuit.mk [0, 1, 0]
      [⟨⟨0, "H", noFlags⟩, 0, 0, 2⟩,
       ⟨⟨5, "M", { noFlags with produces_results := true }⟩, 0, 2, 1⟩] 2 1).operations
      = true :=
  C4_append_op_no_adjacent_fusable [("H", [0], 0), ("H", [1], 0), ("M", [0], 0)] _ (by decide)

/-! ### Lemmas for the detector/observable refinement -/

theorem getD_set_self (l : List (List Nat)) (i : Nat) (x : List Nat) (h : i < l.length) :
    (l.set i x).getD i [] = x := by
  rw [List.getD_eq_getD_get?, List.get?_eq_getElem?, List.getElem?_set_eq_of_lt x h]
  rfl

theorem getD_set_ne (l : List (List Nat)) (i j : Nat) (x : List Nat) (h : i ≠ j) :
    (l.set i x).getD j [] = l.getD j [] := by
  rw [List.getD_eq_getD_get?, List.get?_eq_getElem?, List.getElem?_set_ne h,
    ← List.get?_eq_getElem?, ← List.getD_eq_getD_get?]

theorem getD_append_replicate_nil (l : List (List Nat)) (n k : Nat) :
    (l ++ List.replicate n ([] : List Nat)).getD k [] = l.getD k [] := by
  rcases Nat.lt_or_ge k l.length with h | h
  · exact List.getD_append _ _ _ _ h
  · rw [List.getD_append_right _ _ _ _ h, List.getD_eq_default _ _ h,
      List.getD_eq_getD_get?]
    simp

theorem measTape_append (l1 l2 : List (Gate × ℚ × List Nat)) :
    measTape (l1 ++ l2) = measTape l1 ++ measTape l2 := by
  induction l1 with
  | nil => rfl
  | cons o l ih => simp [measTape, ih]

theorem qIdxList_append (q : Nat) : ∀ (t1 t2 : List Nat) (i : Nat),
    qIdxList q i (t1 ++ t2) = qIdxList q i t1 ++ qIdxList q (i + t1.length) t2
  | [], t2, i => by simp [qIdxList]
  | t :: t1, t2, i => by
    simp only [List.cons_append, qIdxList, List.append_eq]
    rw [qIdxList_append q t1 t2 (i + 1)]
    have h1 : i + 1 + t1.length = i + (t :: t1).length := by simp; omega
    rw [h1, List.append_assoc]

theorem ldoRecord_spec : ∀ (ts : List Nat) (qmi : Nat → List Nat) (m : Nat),
    (∀ q, (ldoRecord qmi m ts).1 q = qmi q ++ qIdxList q m ts) ∧
    (ldoRecord qmi m ts).2 = m + ts.length
  | [], qmi, m => ⟨fun q => by simp [ldoRecord, qIdxList], by simp [ldoRecord]⟩
  | t :: ts, qmi, m => by
    constructor
    · intro q
      have ih := (ldoRecord_spec ts
        (fun q' => if q' = t &&& TARGET_QUBIT_MASK then qmi q' ++ [m] else qmi q') (m + 1)).1 q
      show (ldoRecord _ (m + 1) ts).1 q = _
      rw [ih]
      by_cases hq : q = t &&& TARGET_QUBIT_MASK
      · simp [qIdxList, hq, if_pos]
      · have hne : ¬(t &&& TARGET_QUBIT_MASK = q) := fun hc => hq hc.symm
        simp [qIdxList, hq, hne]
    · have ih := (ldoRecord_spec ts
        (fun q' => if q' = t &&& TARGET_QUBIT_MASK then qmi q' ++ [m] else qmi q') (m + 1)).2
      show (ldoRecord _ (m + 1) ts).2 = _
      rw [ih]
      simp [List.length_cons]
      omega

theorem ldoResolve_ok (qmi : Nat → List Nat) : ∀ ts : List Nat,
    (∀ t ∈ ts, 1 ≤ specDt t ∧ specDt t ≤ (qmi (t &&& TARGET_QUBIT_MASK)).length) →
    ldoResolve qmi ts = Except.ok (ts.map fun t =>
      (qmi (t &&& TARGET_QUBIT_MASK)).getD
        ((qmi (t &&& TARGET_QUBIT_MASK)).length - specDt t) 0)
  | [], _ => rfl
  | t :: ts, h => by
    have ht := h t (List.mem_cons_self t ts)
    have hdt0 : ¬((t &&& TARGET_RECORD_MASK) >>> TARGET_RECORD_SHIFT = 0) := by
      have := ht.1
      unfold specDt at this
      omega
    have hlen : ¬((t &&& TARGET_RECORD_MASK) >>> TARGET_RECORD_SHIFT >
        (qmi (t &&& TARGET_QUBIT_MASK)).length) := by
      have := ht.2
      unfold specDt at this
      omega
    have ih := ldoResolve_ok qmi ts (fun x hx => h x (List.mem_cons_of_mem t hx))
    simp only [ldoResolve, if_neg hdt0, if_neg hlen, ih, List.map_cons]
    rfl

theorem ratTrunc_cast (a : ℚ) (hden : a.den = 1) (hpos : 0 ≤ a) :
    ((ratTruncToNat a : ℚ)) = a := by
  unfold ratTruncToNat
  have hfl : a.floor = a.num := by
    rw [Rat.floor_def', hden]
    simp
  have hnum : 0 ≤ a.num := Rat.num_nonneg.mpr hpos
  have h2 : ((a.num.toNat : ℚ)) = ((a.num : ℚ)) := by
    exact_mod_cast congrArg (fun z : ℤ => (z : ℚ)) (Int.toNat_of_nonneg hnum)
  rw [hfl, h2]
  exact Rat.coe_int_num_of_den_eq_one hden

theorem ldoLoop_ok : ∀ (rest pre : List (Gate × ℚ × List Nat)) (qmi : Nat → List Nat)
    (m : Nat) (dets obss : List (List Nat)),
    (∀ q, qmi q = qIdxList q 0 (measTape pre)) →
    m = (measTape pre).length →
    cleanViews pre rest = true →
    ∃ obssF : List (List Nat),
      ldoLoop qmi m dets obss rest = Except.ok (dets ++ specDetectors pre rest, obssF) ∧
      obssF.length = max obss.length (specObsLen rest) ∧
      (∀ k, obssF.getD k [] = obss.getD k [] ++ specObsEntry pre k rest)
  | [], pre, qmi, m, dets, obss, _, _, _ => by
    refine ⟨obss, ?_, ?_, fun k => ?_⟩
    · simp [ldoLoop, specDetectors]
    · simp [specObsLen]
    · simp [specObsEntry]
  | (g, a, ts) :: rest, pre, qmi, m, dets, obss, hq, hm, hc => by
    simp only [cleanViews, Bool.and_eq_true] at hc
    obtain ⟨⟨hc1, hc2⟩, hc3⟩ := hc
    by_cases hp : g.flags.produces_results = true
    · -- result-producing operation: record each target and advance m
      have hrec := ldoRecord_spec ts qmi m
      have htape : measTape (pre ++ [(g, a, ts)]) = measTape pre ++ ts := by
        rw [measTape_append]
        simp [measTape, isResultView, hp]
      have hq' : ∀ q, (ldoRecord qmi m ts).1 q =
          qIdxList q 0 (measTape (pre ++ [(g, a, ts)])) := by
        intro q
        rw [hrec.1 q, htape, qIdxList_append, ← hq q, ← hm]
        simp
      have hm' : (ldoRecord qmi m ts).2 = (measTape (pre ++ [(g, a, ts)])).length := by
        rw [hrec.2, htape, hm]
        simp
      obtain ⟨obssF, hrun, hlen, hget⟩ :=
        ldoLoop_ok rest (pre ++ [(g, a, ts)]) (ldoRecord qmi m ts).1 (ldoRecord qmi m ts).2
          dets obss hq' hm' hc3
      have hdet : isDetectorView (g, a, ts) = false := by simp [isDetectorView, hp]
      have hobs : isObservableView (g, a, ts) = false := by simp [isObservableView, hp]
      refine ⟨obssF, ?_, ?_, fun k => ?_⟩
      · simp only [ldoLoop, hp, if_pos]
        rw [hrun]
        simp [specDetectors, hdet]
      · rw [hlen]
        simp [specObsLen, hobs]
      · rw [hget k]
        simp [specObsEntry, hobs]
    · by_cases hd : g.id = gate_name_to_id "DETECTOR"
      · -- DETECTOR: resolve the record targets against the current state
        have hdetv : isDetectorView (g, a, ts) = true := by simp [isDetectorView, hp, hd]
        have hcl : ∀ t ∈ ts, 1 ≤ specDt t ∧
            specDt t ≤ (qmi (t &&& TARGET_QUBIT_MASK)).length := by
          rcases Bool.or_eq_true _ _ |>.mp hc1 with hno | hall
          · rw [Bool.not_eq_eq_eq_not, Bool.not_true, Bool.or_eq_false_iff] at hno
            rw [hdetv] at hno
            cases hno.1
          · intro t ht
            have := List.all_eq_true.mp hall t ht
            rw [decide_eq_true_eq] at this
            rw [hq (t &&& TARGET_QUBIT_MASK)]
            exact this
        have hres := ldoResolve_ok qmi ts hcl
        have hmap : (ts.map fun t => (qmi (t &&& TARGET_QUBIT_MASK)).getD
            ((qmi (t &&& TARGET_QUBIT_MASK)).length - specDt t) 0) =
            ts.map (specResolveTarget pre) := by
          apply List.map_congr_left
          intro t _
          unfold specResolveTarget
          rw [hq (t &&& TARGET_QUBIT_MASK)]
        have htape : measTape (pre ++ [(g, a, ts)]) = measTape pre := by
          rw [measTape_append]
          simp [measTape, isResultView, hp]
        have hq' : ∀ q, qmi q = qIdxList q 0 (measTape (pre ++ [(g, a, ts)])) := by
          intro q
          rw [htape]
          exact hq q
        have hm' : m = (measTape (pre ++ [(g, a, ts)])).length := by rw [htape]; exact hm
        obtain ⟨obssF, hrun, hlen, hget⟩ :=
          ldoLoop_ok rest (pre ++ [(g, a, ts)]) qmi m
            (dets ++ [ts.map (specResolveTarget pre)]) obss hq' hm' hc3
        have hobs : isObservableView (g, a, ts) = false := by simp [isObservableView, hd]
        refine ⟨obssF, ?_, ?_, fun k => ?_⟩
        · simp only [ldoLoop, hp, Bool.false_eq_true, if_false, hd, if_pos, hres, hmap]
          rw [hrun]
          simp [specDetectors, hdetv, List.append_assoc]
        · rw [hlen]
          simp [specObsLen, hobs]
        · rw [hget k]
          simp [specObsEntry, hobs]
      · by_cases ho : g.id = gate_name_to_id "OBSERVABLE_INCLUDE"
        · -- OBSERVABLE_INCLUDE: resolve and accumulate into the indexed entry
          have hidne : ¬(gate_name_to_id "OBSERVABLE_INCLUDE" = gate_name_to_id "DETECTOR") := by
            decide
          have hobsv : isObservableView (g, a, ts) = true := by
            simp [isObservableView, hp, hd, ho, hidne]
          have hargs : a.den = 1 ∧ 0 ≤ a := by
            rcases Bool.or_eq_true _ _ |>.mp hc2 with hno | hargs
            · rw [Bool.not_eq_eq_eq_not, Bool.not_true, hobsv] at hno
              cases hno
            · rw [Bool.and_eq_true, decide_eq_true_eq, decide_eq_true_eq] at hargs
              exact hargs
          have hcast : ((ratTruncToNat a : ℚ)) = a := ratTrunc_cast a hargs.1 hargs.2
          have hcl : ∀ t ∈ ts, 1 ≤ specDt t ∧
              specDt t ≤ (qmi (t &&& TARGET_QUBIT_MASK)).length := by
            rcases Bool.or_eq_true _ _ |>.mp hc1 with hno | hall
            · rw [Bool.not_eq_eq_eq_not, Bool.not_true, Bool.or_eq_false_iff] at hno
              rw [hobsv] at hno
              cases hno.2
            · intro t ht
              have := List.all_eq_true.mp hall t ht
              rw [decide_eq_true_eq] at this
              rw [hq (t &&& TARGET_QUBIT_MASK)]
              exact this
          have hres := ldoResolve_ok qmi ts hcl
          have hmap : (ts.map fun t => (qmi (t &&& TARGET_QUBIT_MASK)).getD
              ((qmi (t &&& TARGET_QUBIT_MASK)).length - specDt t) 0) =
              ts.map (specResolveTarget pre) := by
            apply List.map_congr_left
            intro t _
            unfold specResolveTarget
            rw [hq (t &&& TARGET_QUBIT_MASK)]
          have htape : measTape (pre ++ [(g, a, ts)]) = measTape pre := by
            rw [measTape_append]
            simp [measTape, isResultView, hp]
          have hq' : ∀ q, qmi q = qIdxList q 0 (measTape (pre ++ [(g, a, ts)])) := by
            intro q
            rw [htape]
            exact hq q
          have hm' : m = (measTape (pre ++ [(g, a, ts)])).length := by rw [htape]; exact hm
          have hplen : (obss ++ List.replicate (ratTruncToNat a + 1 - obss.length)
              ([] : List Nat)).length = max obss.length (ratTruncToNat a + 1) := by
            simp only [List.length_append, List.length_replicate]
            omega
          have hoblt : ratTruncToNat a < (obss ++ List.replicate
              (ratTruncToNat a + 1 - obss.length) ([] : List Nat)).length := by
            rw [hplen]
            omega
          have hngetD : ∀ k,
              ((obss ++ List.replicate (ratTruncToNat a + 1 - obss.length) []).set
                (ratTruncToNat a)
                ((obss ++ List.replicate (ratTruncToNat a + 1 - obss.length) []).getD
                  (ratTruncToNat a) [] ++ ts.map (specResolveTarget pre))).getD k [] =
              if k = ratTruncToNat a then
                obss.getD k [] ++ ts.map (specResolveTarget pre)
              else obss.getD k [] := by
            intro k
            by_cases hk : k = ratTruncToNat a
            · rw [if_pos hk, hk, getD_set_self _ _ _ hoblt, getD_append_replicate_nil]
            · rw [if_neg hk, getD_set_ne _ _ _ _ (fun hco => hk hco.symm),
                getD_append_replicate_nil]
          obtain ⟨obssF, hrun, hlen, hget⟩ :=
            ldoLoop_ok rest (pre ++ [(g, a, ts)]) qmi m dets
              ((obss ++ List.replicate (ratTruncToNat a + 1 - obss.length) []).set
                (ratTruncToNat a)
                ((obss ++ List.replicate (ratTruncToNat a + 1 - obss.length) []).getD
                  (ratTruncToNat a) [] ++ ts.map (specResolveTarget pre)))
              hq' hm' hc3
          have hdetf : isDetectorView (g, a, ts) = false := by simp [isDetectorView, hd]
          refine ⟨obssF, ?_, ?_, ?_⟩
          · simp only [ldoLoop, hp, Bool.false_eq_true, if_false]
            rw [if_neg hd, if_pos ho, if_neg (fun hco => hco hcast)]
            simp only [hres, hmap]
            rw [hrun]
            simp [specDetectors, hdetf]
          · rw [hlen, List.length_set, hplen]
            simp only [specObsLen, hobsv, if_pos]
            have hoi : obsIndexOf (g, a, ts) = ratTruncToNat a := rfl
            rw [hoi]
            omega
          · intro k
            rw [hget k, hngetD k]
            simp only [specObsEntry, hobsv, true_and]
            have hoi : obsIndexOf (g, a, ts) = ratTruncToNat a := rfl
            rw [hoi]
            by_cases hk : k = ratTruncToNat a
            · rw [if_pos hk, if_pos hk.symm, List.append_assoc]
            · rw [if_neg hk, if_neg (fun hco => hk hco.symm)]
              simp
        · -- any other gate: the resolver skips it
          have hdetf : isDetectorView (g, a, ts) = false := by simp [isDetectorView, hd]
          have hobsf : isObservableView (g, a, ts) = false := by simp [isObservableView, ho]
          have htape : measTape (pre ++ [(g, a, ts)]) = measTape pre := by
            rw [measTape_append]
            simp [measTape, isResultView, hp]
          have hq' : ∀ q, qmi q = qIdxList q 0 (measTape (pre ++ [(g, a, ts)])) := by
            intro q
            rw [htape]
            exact hq q
          have hm' : m = (measTape (pre ++ [(g, a, ts)])).length := by rw [htape]; exact hm
          obtain ⟨obssF, hrun, hlen, hget⟩ :=
            ldoLoop_ok rest (pre ++ [(g, a, ts)]) qmi m dets obss hq' hm' hc3
          refine ⟨obssF, ?_, ?_, fun k => ?_⟩
          · simp only [ldoLoop, hp, Bool.false_eq_true, if_false, hd, ho]
            rw [hrun]
            simp [specDetectors, hdetf]
          · rw [hlen]
            simp [specObsLen, hobsf]
          · rw [hget k]
            simp [specObsEntry, hobsf]

/-- C5: under the claim's hypotheses — every record target of a
`DETECTOR`/`OBSERVABLE_INCLUDE` operation has lookback `1 ≤ dt ≤` the number
of prior measurements on its qubit, and every `OBSERVABLE_INCLUDE` argument is
a non-negative integer — `list_detectors_and_observables` succeeds and returns
exactly the specification values: global 0-based measurement indices assigned
to result-producing targets in program order, one detector set per `DETECTOR`
operation whose entries are the elements at position `len − dt` of the
target qubit's measurement-index list, and an on-demand-grown observable list
whose entry `k` concatenates, in program order, the resolved indices of every
`OBSERVABLE_INCLUDE` whose argument equals `k` (missing indices empty). -/
theorem C5_resolver_functional_correctness (c : Circuit)
    (hclean : cleanViews [] (opViews c) = true) :
    c.list_detectors_and_observables = Except.ok
      (specDetectors [] (opViews c),
       (List.range (specObsLen (opViews c))).map fun k => specObsEntry [] k (opViews c)) := by
  obtain ⟨obssF, heq, hlen, hgetD⟩ :=
    ldoLoop_ok (opViews c) [] (fun _ => []) 0 [] [] (fun _ => rfl) rfl hclean
  have hdef : c.list_detectors_and_observables =
      ldoLoop (fun _ => []) 0 [] [] (opViews c) := rfl
  rw [hdef, heq, List.nil_append]
  have h2 : obssF =
      (List.range (specObsLen (opViews c))).map fun k => specObsEntry [] k (opViews c) := by
    apply List.ext_getElem
    · rw [hlen]
      simp
    · intro i hi1 hi2
      rw [← List.getD_eq_getElem obssF [] hi1, hgetD i, List.getElem_map, List.getElem_range]
      simp [List.getD]
  rw [h2]

/-- The circuit of the spec's detector-resolution scenario:
`M 0 1 2` / `DETECTOR 0@-1 2@-1` / `OBSERVABLE_INCLUDE(3) 1@-1`. -/
def c5SampleCircuit : Circuit :=
  Circuit.mk [0, 1, 2, 268435456, 268435458, 268435457]
    [⟨⟨5, "M", ⟨false, true, false, false, false, false, false, false⟩⟩, 0, 0, 3⟩,
     ⟨⟨7, "DETECTOR", ⟨false, false, false, true, false, false, false, true⟩⟩, 0, 3, 2⟩,
     ⟨⟨8, "OBSERVABLE_INCLUDE", ⟨true, false, false, true, false, false, false, true⟩⟩,
       3, 5, 1⟩]
    3 3

/-- Witness for C5 at the spec's scenario: the detector set is `{0, 2}` and
observable 3 is `[1]` (observables 0–2 present but empty). -/
theorem C5_resolver_functional_correctness_witness :
    c5SampleCircuit.list_detectors_and_observables = Except.ok
      (specDetectors [] (opViews c5SampleCircuit),
       (List.range (specObsLen (opViews c5SampleCircuit))).map fun k =>
         specObsEntry [] k (opViews c5SampleCircuit)) ∧
    specDetectors [] (opViews c5SampleCircuit) = [[0, 2]] ∧
    (List.range (specObsLen (opViews c5SampleCircuit))).map (fun k =>
      specObsEntry [] k (opViews c5SampleCircuit)) = [[], [], [], [1]] :=
  ⟨C5_resolver_functional_correctness c5SampleCircuit (by decide), by decide, by decide⟩

/-! ### Error propagation in the resolver -/

theorem ldoResolve_err (qmi : Nat → List Nat) : ∀ ts : List Nat,
    (∃ t ∈ ts, specDt t = 0 ∨ specDt t > (qmi (t &&& TARGET_QUBIT_MASK)).length) →
    ∃ e, ldoResolve qmi ts = Except.error e
  | [], h => by
    obtain ⟨t, ht, _⟩ := h
    cases ht
  | t :: ts, h => by
    by_cases h0 : (t &&& TARGET_RECORD_MASK) >>> TARGET_RECORD_SHIFT = 0
    · exact ⟨"Record lookback can't be 0 (unspecified).",
        by simp only [ldoResolve, if_pos h0]⟩
    · by_cases h1 : (t &&& TARGET_RECORD_MASK) >>> TARGET_RECORD_SHIFT >
          (qmi (t &&& TARGET_QUBIT_MASK)).length
      · exact ⟨"Referred to a measurement result before the beginning of time.",
        by simp only [ldoResolve, if_neg h0, if_pos h1]⟩
      · have hrest : ∃ x ∈ ts, specDt x = 0 ∨
            specDt x > (qmi (x &&& TARGET_QUBIT_MASK)).length := by
          obtain ⟨x, hx, hxbad⟩ := h
          rcases List.mem_cons.mp hx with hxt | hxts
          · subst hxt
            unfold specDt at hxbad
            rcases hxbad with hb | hb
            · exact absurd hb h0
            · exact absurd hb h1
          · exact ⟨x, hxts, hxbad⟩
        obtain ⟨e, he⟩ := ldoResolve_err qmi ts hrest
        refine ⟨e, ?_⟩
        simp only [ldoResolve, if_neg h0, if_neg h1, he]

theorem ldoLoop_err : ∀ (rest pre : List (Gate × ℚ × List Nat)) (qmi : Nat → List Nat)
    (m : Nat) (dets obss : List (List Nat)) (o : Gate × ℚ × List Nat)
    (post : List (Gate × ℚ × List Nat)),
    (∀ q, qmi q = qIdxList q 0 (measTape pre)) →
    m = (measTape pre).length →
    (isDetectorView o = true ∨ isObservableView o = true) →
    (∃ t ∈ o.2.2, specDt t = 0 ∨
      specDt t > (qIdxList (t &&& TARGET_QUBIT_MASK) 0 (measTape (pre ++ rest))).length) →
    ∃ e, ldoLoop qmi m dets obss (rest ++ o :: post) = Except.error e
  | [], pre, qmi, m, dets, obss, (g, a, ts), post, hq, _, hkind, hbad => by
    have hbad' : ∃ t ∈ ts, specDt t = 0 ∨
        specDt t > (qmi (t &&& TARGET_QUBIT_MASK)).length := by
      obtain ⟨t, ht, hb⟩ := hbad
      refine ⟨t, ht, ?_⟩
      rw [hq (t &&& TARGET_QUBIT_MASK)]
      simpa using hb
    have hpf : g.flags.produces_results = false := by
      rcases hkind with hk | hk
      · simp only [isDetectorView, Bool.and_eq_true, Bool.not_eq_true'] at hk
        exact hk.1
      · simp only [isObservableView, Bool.and_eq_true, Bool.not_eq_true'] at hk
        exact hk.1.1
    obtain ⟨e, he⟩ := ldoResolve_err qmi ts hbad'
    rcases hkind with hk | hk
    · -- DETECTOR
      have hid : g.id = gate_name_to_id "DETECTOR" := by
        simp only [isDetectorView, Bool.and_eq_true] at hk
        simpa using hk.2
      refine ⟨e, ?_⟩
      simp only [List.nil_append, ldoLoop, hpf, Bool.false_eq_true, if_false,
        if_pos hid, he]
    · -- OBSERVABLE_INCLUDE
      have hnd : ¬(g.id = gate_name_to_id "DETECTOR") := by
        simp only [isObservableView, Bool.and_eq_true, Bool.not_eq_true'] at hk
        intro hcon
        have := hk.1.2
        rw [hcon] at this
        simp at this
      have hid : g.id = gate_name_to_id "OBSERVABLE_INCLUDE" := by
        simp only [isObservableView, Bool.and_eq_true] at hk
        simpa using hk.2
      by_cases hcast : ((ratTruncToNat a : ℚ)) ≠ a
      · refine ⟨"Observable index must be an integer.", ?_⟩
        simp only [List.nil_append, ldoLoop, hpf, Bool.false_eq_true, if_false]
        rw [if_neg hnd, if_pos hid, if_pos hcast]
      · refine ⟨e, ?_⟩
        simp only [List.nil_append, ldoLoop, hpf, Bool.false_eq_true, if_false]
        rw [if_neg hnd, if_pos hid, if_neg hcast]
        simp only [he]
  | (g1, a1, ts1) :: rest, pre, qmi, m, dets, obss, o, post, hq, hm, hkind, hbad => by
    have hassoc : pre ++ (g1, a1, ts1) :: rest = (pre ++ [(g1, a1, ts1)]) ++ rest := by
      simp
    rw [hassoc] at hbad
    by_cases hp : g1.flags.produces_results = true
    · have hrec := ldoRecord_spec ts1 qmi m
      have htape : measTape (pre ++ [(g1, a1, ts1)]) = measTape pre ++ ts1 := by
        rw [measTape_append]
        simp [measTape, isResultView, hp]
      have hq' : ∀ q, (ldoRecord qmi m ts1).1 q =
          qIdxList q 0 (measTape (pre ++ [(g1, a1, ts1)])) := by
        intro q
        rw [hrec.1 q, htape, qIdxList_append, ← hq q, ← hm]
        simp
      have hm' : (ldoRecord qmi m ts1).2 =
          (measTape (pre ++ [(g1, a1, ts1)])).length := by
        rw [hrec.2, htape, hm]
        simp
      obtain ⟨e, he⟩ := ldoLoop_err rest (pre ++ [(g1, a1, ts1)]) (ldoRecord qmi m ts1).1
        (ldoRecord qmi m ts1).2 dets obss o post hq' hm' hkind hbad
      refine ⟨e, ?_⟩
      simp only [List.cons_append, ldoLoop, hp, if_pos]
      exact he
    · have htape : measTape (pre ++ [(g1, a1, ts1)]) = measTape pre := by
        rw [measTape_append]
        simp [measTape, isResultView, hp]
      have hq' : ∀ q, qmi q = qIdxList q 0 (measTape (pre ++ [(g1, a1, ts1)])) := by
        intro q
        rw [htape]
        exact hq q
      have hm' : m = (measTape (pre ++ [(g1, a1, ts1)])).length := by
        rw [htape]
        exact hm
      by_cases hd : g1.id = gate_name_to_id "DETECTOR"
      · cases hres : ldoResolve qmi ts1 with
        | error e =>
          refine ⟨e, ?_⟩
          simp only [List.cons_append, ldoLoop, hp, Bool.false_eq_true, if_false]
          rw [if_pos hd]
          simp only [hres]
        | ok res =>
          obtain ⟨e, he⟩ := ldoLoop_err rest (pre ++ [(g1, a1, ts1)]) qmi m
            (dets ++ [res]) obss o post hq' hm' hkind hbad
          refine ⟨e, ?_⟩
          simp only [List.cons_append, ldoLoop, hp, Bool.false_eq_true, if_false]
          rw [if_pos hd]
          simp only [hres]
          exact he
      · by_cases ho : g1.id = gate_name_to_id "OBSERVABLE_INCLUDE"
        · by_cases hcast : ((ratTruncToNat a1 : ℚ)) ≠ a1
          · refine ⟨"Observable index must be an integer.", ?_⟩
            simp only [List.cons_append, ldoLoop, hp, Bool.false_eq_true, if_false]
            rw [if_neg hd, if_pos ho, if_pos hcast]
          · cases hres : ldoResolve qmi ts1 with
            | error e =>
              refine ⟨e, ?_⟩
              simp only [List.cons_append, ldoLoop, hp, Bool.false_eq_true, if_false]
              rw [if_neg hd, if_pos ho, if_neg hcast]
              simp only [hres]
            | ok res =>
              obtain ⟨e, he⟩ := ldoLoop_err rest (pre ++ [(g1, a1, ts1)]) qmi m dets
                (((obss ++ List.replicate (ratTruncToNat a1 + 1 - obss.length) []).set
                  (ratTruncToNat a1)
                  ((obss ++ List.replicate (ratTruncToNat a1 + 1 - obss.length) []).getD
                    (ratTruncToNat a1) [] ++ res))) o post hq' hm' hkind hbad
              refine ⟨e, ?_⟩
              simp only [List.cons_append, ldoLoop, hp, Bool.false_eq_true, if_false]
              rw [if_neg hd, if_pos ho, if_neg hcast]
              simp only [hres]
              exact he
        · obtain ⟨e, he⟩ := ldoLoop_err rest (pre ++ [(g1, a1, ts1)]) qmi m dets obss o post
            hq' hm' hkind hbad
          refine ⟨e, ?_⟩
          simp only [List.cons_append, ldoLoop, hp, Bool.false_eq_true, if_false]
          rw [if_neg hd, if_neg ho]
          exact he

/-- C9: the resolver fails on any `DETECTOR`/`OBSERVABLE_INCLUDE` operation
one of whose record targets has lookback `dt = 0` or `dt` exceeding the number
of measurements recorded so far on that qubit (the length of the qubit's
measurement-index list over the preceding operations) — wherever the operation
sits in the circuit; in particular a circuit whose first operation is
`DETECTOR 0@-1` is rejected (see the witness, which applies this at exactly
that circuit). -/
theorem C9_record_bounds (c : Circuit) (pre : List (Gate × ℚ × List Nat))
    (o : Gate × ℚ × List Nat) (post : List (Gate × ℚ × List Nat))
    (hviews : opViews c = pre ++ o :: post)
    (hkind : isDetectorView o = true ∨ isObservableView o = true)
    (hbad : ∃ t ∈ o.2.2, specDt t = 0 ∨
      specDt t > (qIdxList (t &&& TARGET_QUBIT_MASK) 0 (measTape pre)).length) :
    (c.list_detectors_and_observables).isOk = false := by
  have hdef : c.list_detectors_and_observables =
      ldoLoop (fun _ => []) 0 [] [] (opViews c) := rfl
  obtain ⟨e, he⟩ := ldoLoop_err pre [] (fun _ => []) 0 [] [] o post (fun _ => rfl) rfl hkind
    (by simpa using hbad)
  rw [hdef, hviews, he]
  rfl

/-- Witness for C9 at the claim's concrete instance: the circuit parsed from
`DETECTOR 0@-1` (no preceding measurement on qubit 0) is rejected by the
resolver. -/
theorem C9_record_bounds_witness :
    Circuit.from_text "DETECTOR 0@-1\n" = Except.ok (Circuit.mk [268435456]
      [⟨⟨7, "DETECTOR", ⟨false, false, false, true, false, false, false, true⟩⟩, 0, 0, 1⟩]
      1 0) ∧
    ((Circuit.mk [268435456]
      [⟨⟨7, "DETECTOR", ⟨false, false, false, true, false, false, false, true⟩⟩, 0, 0, 1⟩]
      1 0).list_detectors_and_observables).isOk = false :=
  ⟨by decide,
   C9_record_bounds _ []
     (⟨7, "DETECTOR", ⟨false, false, false, true, false, false, false, true⟩⟩, 0,
       [268435456]) [] rfl (Or.inl (by decide)) ⟨268435456, by decide, by decide⟩⟩
